import Mathlib

/-!
Verification of the core of a Game Boy (DMG) emulator, shallowly embedded
from its Rust sources.  The repository contains two parallel crates: an
older standalone crate (here prefixed `Src…`, from `src/src/…`) and a newer
backend crate (here prefixed `Back…`, from `src/backend/src/…`).  Bytes are
modelled as `Nat` values below 256, byte arrays as functions `Nat → Nat`,
and fallible code (Rust panics) as `Option`.
-/

set_option maxRecDepth 10000
set_option maxHeartbeats 1600000

/-! ## MBC1 cartridge controller, backend crate (`src/backend/src/memory/mbc1.rs`) -/

namespace BackMBC1

/-- State of the backend MBC1 controller.  `rom` and `ram` model the two `Vec<u8>`
payloads as total byte functions. -/
structure State where
  bank_count : Nat
  bank_index : Nat
  ram_index : Nat
  ram_enabled : Bool
  rom : Nat → Nat
  ram : Nat → Nat

/-- `BANK_SIZE` from `src/backend/src/memory/mbc1.rs`. -/
def BANK_SIZE : Nat := 0x4000

/-- `MBC1::read_memory` from `src/backend/src/memory/mbc1.rs`.  The final
`_ => panic!` arm is modelled as `none`. -/
def read_memory (s : State) (addr : Nat) : Option Nat :=
  if addr ≤ 0x3FFF then
    some (s.rom addr)
  else if addr ≤ 0x7FFF then
    some (s.rom (s.bank_index * BANK_SIZE + (addr - 0x4000)))
  else if 0xA000 ≤ addr ∧ addr ≤ 0xBFFF then
    if s.ram_enabled then
      some (s.ram (s.ram_index * BANK_SIZE + (addr - 0xA000)))
    else
      some 0xFF
  else
    none

/-- `MBC1::write_memory` from `src/backend/src/memory/mbc1.rs`.  The
`0x6000..=0x7FFF` arm hits `unimplemented!()` for nonzero values and the
final arm hits `panic!`; both are modelled as `none`.  `%` on `Nat` agrees
with the Rust `usize` remainder whenever `bank_count > 0`; the
`bank_count = 0` division-by-zero panic is outside every theorem below. -/
def write_memory (s : State) (addr value : Nat) : Option State :=
  if addr ≤ 0x1FFF then
    some { s with ram_enabled := value == 0x0A }
  else if addr ≤ 0x3FFF then
    let value := value &&& 0b11111
    let bank_index := value % s.bank_count
    let bank_index := if bank_index &&& 0xF == 0 then bank_index + 1 else bank_index
    some { s with bank_index := bank_index }
  else if addr ≤ 0x5FFF then
    let value := value &&& 0b11
    some { s with ram_index := value }
  else if addr ≤ 0x7FFF then
    if value ≠ 0 then none else some s
  else if 0xA000 ≤ addr ∧ addr ≤ 0xBFFF then
    if s.ram_enabled then
      some { s with ram := fun i => if i = s.ram_index * BANK_SIZE + (addr - 0xA000) then value else s.ram i }
    else
      some s
  else
    none

end BackMBC1

/-! ## MBC1 cartridge controller, standalone crate (`src/src/memory/mbc1.rs`) -/

namespace SrcMBC1

/-- State of the standalone-crate MBC1 controller (`banks`/`rams` vectors as
byte functions). -/
structure State where
  bank_count : Nat
  bank_index : Nat
  ram_index : Nat
  ram_enabled : Bool
  banks : Nat → Nat
  rams : Nat → Nat

/-- `BANK_SIZE` from `src/src/memory/mbc1.rs`. -/
def BANK_SIZE : Nat := 0x4000

/-- `MBC1::read_memory` from `src/src/memory/mbc1.rs`. -/
def read_memory (s : State) (addr : Nat) : Option Nat :=
  if addr ≤ 0x3FFF then
    some (s.banks addr)
  else if addr ≤ 0x7FFF then
    some (s.banks (s.bank_index * BANK_SIZE + (addr - 0x4000)))
  else if 0xA000 ≤ addr ∧ addr ≤ 0xBFFF then
    if s.ram_enabled then
      some (s.rams (s.ram_index * BANK_SIZE + (addr - 0xA000)))
    else
      some 0xFF
  else
    none

/-- `MBC1::write_memory` from `src/src/memory/mbc1.rs`.  Note the
`0x2000..=0x3FFF` arm masks the value with `0x20` (not `0x1F`). -/
def write_memory (s : State) (addr value : Nat) : Option State :=
  if addr ≤ 0x1FFF then
    if value == 0x0A then
      some { s with ram_enabled := true }
    else
      some { s with ram_enabled := false }
  else if addr ≤ 0x3FFF then
    let value := value &&& 0x20
    let bank_index := value % s.bank_count
    let bank_index := if bank_index &&& 0xF == 0 then bank_index + 1 else bank_index
    some { s with bank_index := bank_index }
  else if addr ≤ 0x5FFF then
    let value := value &&& 0b11
    some { s with ram_index := value }
  else if addr ≤ 0x7FFF then
    if value ≠ 0 then none else some s
  else if 0xA000 ≤ addr ∧ addr ≤ 0xBFFF then
    if s.ram_enabled then
      some { s with rams := fun i => if i = s.ram_index * BANK_SIZE + (addr - 0xA000) then value else s.rams i }
    else
      some s
  else
    none

end SrcMBC1

/-! ## Pixel mixing (`src/backend/src/ppu/pixel.rs`, `pixel_fifo.rs`) -/

namespace BackPPU

/-- `PixelSource` from `src/backend/src/ppu/pixel.rs`. -/
inductive PixelSource where
  | backgroundWindow : PixelSource
  | oam (palette : Nat) (bg_priority : Bool) : PixelSource
deriving DecidableEq, Repr

/-- `Pixel` from `src/backend/src/ppu/pixel.rs`. -/
structure Pixel where
  color : Nat
  source : PixelSource
deriving DecidableEq, Repr

/-- `choose_pixel` from `src/backend/src/ppu/pixel_fifo.rs`; the
`_ => panic!("Bad mixing between pixels")` arm is modelled as `none`. -/
def choose_pixel (bg_pixel oam_pixel : Pixel) (obj_enable : Bool) : Option Pixel :=
  match bg_pixel, oam_pixel with
  | ⟨bg_color, PixelSource.backgroundWindow⟩, ⟨oam_color, PixelSource.oam p bg_priority⟩ =>
    if ¬obj_enable ∨ oam_color = 0 then
      some ⟨bg_color, PixelSource.backgroundWindow⟩
    else if ¬bg_priority then
      some ⟨oam_color, PixelSource.oam p bg_priority⟩
    else if bg_color ≠ 0 then
      some ⟨bg_color, PixelSource.backgroundWindow⟩
    else
      some ⟨oam_color, PixelSource.oam p bg_priority⟩
  | _, _ => none

/-- The merge rule exactly as the specification words it (written from the
spec, to be compared with `choose_pixel` which is written from the code):
BG pixel if OBJ display is disabled or the OBJ color is 0; otherwise the OBJ
pixel if the OBJ priority flag is clear; otherwise the BG pixel if the BG
color is nonzero; otherwise the OBJ pixel. -/
def spec_merge (bg_color obj_color : Nat) (obj_priority obj_enable : Bool)
    (bg_pixel obj_pixel : Pixel) : Pixel :=
  if obj_enable = false ∨ obj_color = 0 then bg_pixel
  else if obj_priority = false then obj_pixel
  else if bg_color ≠ 0 then bg_pixel
  else obj_pixel

end BackPPU

/-! ## Interrupt & timer controller (`src/src/interrupt.rs`) -/

namespace SrcITC

/-- `Keys` from `src/src/interrupt.rs` (the `KeysMax` marker is not a key). -/
inductive Keys where
  | up | down | left | right | a | b | start | select
deriving DecidableEq, Repr

/-- `IntKind` bit constants from `src/src/interrupt.rs`. -/
def VBLANK : Nat := 1
def LCD_STAT : Nat := 2
def TIMER : Nat := 4
def SERIAL : Nat := 8
def JOYPAD : Nat := 16
def DUMMY : Nat := 0b11100000

/-- `JoypadBits` constants from `src/src/interrupt.rs`. -/
def P15_SELECT_BUTTON_KEYS : Nat := 32
def P14_SELECT_DIRECTION_KEYS : Nat := 16
def P13_INPUT_DOWN_OR_START : Nat := 8
def P12_INPUT_UP_OR_SELECT : Nat := 4
def P11_INPUT_LEFT_OR_B : Nat := 2
def P10_INPUT_RIGHT_OR_A : Nat := 1

/-- `InterruptController` state from `src/src/interrupt.rs`; byte and `u32`
registers are `Nat`s, bitflag sets are their underlying byte. -/
structure State where
  master_enable : Bool
  interrupt_enable : Nat
  interrupt_flag : Nat
  divider_register : Nat
  divider_counter : Nat
  timer_counter : Nat
  timer_modulo : Nat
  timer_sub_counter : Nat
  timer_control : Nat
  should_redraw : Bool
  new_int_waiting : Bool
  keys_state : Keys → Bool
  select_buttons : Bool
  select_directions : Bool

/-- `InterruptController::trigger_timer_int`. -/
def trigger_timer_int (s : State) : State :=
  { s with interrupt_flag := s.interrupt_flag ||| TIMER, new_int_waiting := true }

/-- `InterruptController::trigger_vblank_int`. -/
def trigger_vblank_int (s : State) : State :=
  { s with interrupt_flag := s.interrupt_flag ||| VBLANK, new_int_waiting := true,
           should_redraw := true }

/-- `InterruptController::trigger_lcd_stat_int`. -/
def trigger_lcd_stat_int (s : State) : State :=
  { s with interrupt_flag := s.interrupt_flag ||| LCD_STAT, new_int_waiting := true }

/-- `InterruptController::timer_divider`: the `unreachable!()` arm cannot
trigger because `timer_control &&& 0b11 ≤ 3`, so the last match arm is `0b11`. -/
def timer_divider (s : State) : Nat :=
  match s.timer_control &&& 0b11 with
  | 0 => 1024
  | 1 => 16
  | 2 => 64
  | _ => 256

/-- `InterruptController::is_timer_enabled`. -/
def is_timer_enabled (s : State) : Bool :=
  s.timer_control &&& 0b100 == 0b100

/-- The divider `while` loop of `timer_step`: while the counter holds at
least 256 T-cycles, increment the `DIV` register (wrapping on a byte) and
subtract 256. -/
def divider_loop (reg cnt : Nat) : Nat × Nat :=
  if 256 ≤ cnt then divider_loop ((reg + 1) % 256) (cnt - 256) else (reg, cnt)
termination_by cnt

/-- One iteration of the timer `while` loop of `timer_step`:
`overflowing_add(1)` on the byte `TIMA`, reloading from `TMA` and raising
the timer interrupt on carry, then subtracting the divider from the
sub-counter. -/
def timer_tick_once (div : Nat) (s : State) : State :=
  let carry := s.timer_counter == 255
  let new_timer := (s.timer_counter + 1) % 256
  let s' := if carry then { trigger_timer_int s with timer_counter := s.timer_modulo }
            else { s with timer_counter := new_timer }
  { s' with timer_sub_counter := s'.timer_sub_counter - div }

theorem timer_tick_once_sub (div : Nat) (s : State) :
    (timer_tick_once div s).timer_sub_counter = s.timer_sub_counter - div := by
  unfold timer_tick_once trigger_timer_int
  dsimp only
  split <;> rfl

/-- The timer `while` loop of `timer_step` (`while timer_sub_counter ≥
divider`).  The `0 < div` guard only serves termination: the source divider
is always one of 1024, 16, 64, 256. -/
def timer_loop (div : Nat) (s : State) : State :=
  if h : 0 < div ∧ div ≤ s.timer_sub_counter then timer_loop div (timer_tick_once div s)
  else s
termination_by s.timer_sub_counter
decreasing_by simp [timer_tick_once_sub]; omega

/-- `InterruptController::timer_step` from `src/src/interrupt.rs`: wrapping
`u32` accumulation into the divider counter, the divider loop, then either
the timer loop (timer enabled) or the reset of `TIMA` and the sub-counter
(timer disabled). -/
def timer_step (s : State) (ticks : Nat) : State :=
  let s1 := { s with divider_counter := (s.divider_counter + ticks) % 4294967296 }
  let p := divider_loop s1.divider_register s1.divider_counter
  let s2 := { s1 with divider_register := p.1, divider_counter := p.2 }
  if is_timer_enabled s2 then
    let div := timer_divider s2
    let s3 := { s2 with timer_sub_counter := s2.timer_sub_counter + ticks }
    timer_loop div s3
  else
    { s2 with timer_counter := 0, timer_sub_counter := 0 }

/-- `InterruptController::change_key_state` from `src/src/interrupt.rs`:
it records the key state and then executes `todo!("Trigger interruption")`,
which unconditionally aborts; the abort is modelled as `none`. -/
def change_key_state (s : State) (key : Keys) (pressed : Bool) : Option State :=
  let _s := { s with keys_state := fun k => if k = key then pressed else s.keys_state k }
  none

/-- `InterruptController::read_joypad_reg` from `src/src/interrupt.rs`,
factored over the two select latches and the key map (this exact byte
builder is also what the backend MMU consumes).  The final complement
`!flags.bits()` is a byte complement. -/
def read_joypad_bits (dirs btns : Bool) (keys : Keys → Bool) : Nat :=
  let flags := 0
  let flags := if dirs then
      let f := flags ||| P14_SELECT_DIRECTION_KEYS
      let f := if keys Keys.down then f ||| P13_INPUT_DOWN_OR_START else f
      let f := if keys Keys.up then f ||| P12_INPUT_UP_OR_SELECT else f
      let f := if keys Keys.left then f ||| P11_INPUT_LEFT_OR_B else f
      let f := if keys Keys.right then f ||| P10_INPUT_RIGHT_OR_A else f
      f
    else flags
  let flags := if btns then
      let f := flags ||| P15_SELECT_BUTTON_KEYS
      let f := if keys Keys.start then f ||| P13_INPUT_DOWN_OR_START else f
      let f := if keys Keys.select then f ||| P12_INPUT_UP_OR_SELECT else f
      let f := if keys Keys.b then f ||| P11_INPUT_LEFT_OR_B else f
      let f := if keys Keys.a then f ||| P10_INPUT_RIGHT_OR_A else f
      f
    else flags
  0xFF ^^^ flags

/-- `InterruptController::read_joypad_reg` on the controller state. -/
def read_joypad_reg (s : State) : Nat :=
  read_joypad_bits s.select_directions s.select_buttons s.keys_state

/-- `InterruptController::write_joypad_reg`: the select latches are the
complement of bits 4 and 5 of the written byte (`from_bits_truncate(!v)`). -/
def write_joypad_reg (s : State) (v : Nat) : State :=
  let flags := (0xFF ^^^ (v % 256)) &&& 0b111111
  { s with select_directions := Nat.testBit flags 4,
           select_buttons := Nat.testBit flags 5 }

/-- Single `TIMA` increment exactly as the specification words it (spec
side, for comparison with the `timer_step` loop): the pair is `(TIMA, IF)`;
an increment that overflows past `0xFF` reloads `TIMA` from `TMA` and sets
the Timer bit (bit 2) in `IF`. -/
def spec_tima_inc (tmod : Nat) : Nat × Nat → Nat × Nat
  | (tima, iflag) => if tima = 0xFF then (tmod, iflag ||| 4) else (tima + 1, iflag)

theorem timer_loop_eq_iterate (div : Nat) (hdiv : 0 < div) :
    ∀ (n : Nat) (s : State), s.timer_sub_counter = n →
      timer_loop div s = (timer_tick_once div)^[s.timer_sub_counter / div] s := by
  intro n
  induction n using Nat.strong_induction_on with
  | _ n ih =>
    intro s hs
    rw [timer_loop]
    split_ifs with h
    · have hsub : (timer_tick_once div s).timer_sub_counter = s.timer_sub_counter - div :=
        timer_tick_once_sub div s
      have hlt : s.timer_sub_counter - div < n := by omega
      rw [ih _ hlt (timer_tick_once div s) hsub, hsub]
      have hq : s.timer_sub_counter / div = (s.timer_sub_counter - div) / div + 1 :=
        Nat.div_eq_sub_div hdiv h.2
      rw [hq, Function.iterate_succ_apply]
    · have h0 : s.timer_sub_counter / div = 0 := Nat.div_eq_of_lt (by omega)
      rw [h0, Function.iterate_zero_apply]

theorem timer_tick_once_counter (div : Nat) (s : State)
    (hTima : s.timer_counter ≤ 255) :
    ((timer_tick_once div s).timer_counter, (timer_tick_once div s).interrupt_flag) =
      spec_tima_inc s.timer_modulo (s.timer_counter, s.interrupt_flag) := by
  unfold timer_tick_once trigger_timer_int spec_tima_inc TIMER
  dsimp only
  by_cases h : s.timer_counter = 255
  · simp [h]
  · simp [h, Nat.mod_eq_of_lt (by omega : s.timer_counter + 1 < 256)]

theorem timer_tick_once_mod (div : Nat) (s : State) :
    (timer_tick_once div s).timer_modulo = s.timer_modulo := by
  unfold timer_tick_once trigger_timer_int
  dsimp only
  split <;> rfl

theorem timer_tick_once_counter_le (div : Nat) (s : State)
    (hTmod : s.timer_modulo ≤ 255) :
    (timer_tick_once div s).timer_counter ≤ 255 := by
  unfold timer_tick_once trigger_timer_int
  dsimp only
  split <;> simp <;> omega

theorem timer_iterate_pairs (div : Nat) :
    ∀ (n : Nat) (s : State), s.timer_counter ≤ 255 → s.timer_modulo ≤ 255 →
      (((timer_tick_once div)^[n] s).timer_counter,
          ((timer_tick_once div)^[n] s).interrupt_flag) =
        (spec_tima_inc s.timer_modulo)^[n] (s.timer_counter, s.interrupt_flag) := by
  intro n
  induction n with
  | zero => intro s _ _; rfl
  | succ n ih =>
    intro s hTima hTmod
    rw [Function.iterate_succ_apply, Function.iterate_succ_apply]
    rw [ih (timer_tick_once div s) (timer_tick_once_counter_le div s hTmod)
      (by rw [timer_tick_once_mod]; exact hTmod)]
    rw [timer_tick_once_mod, timer_tick_once_counter div s hTima]

theorem timer_iterate_sub (div : Nat) :
    ∀ (n : Nat) (s : State),
      ((timer_tick_once div)^[n] s).timer_sub_counter = s.timer_sub_counter - n * div := by
  intro n
  induction n with
  | zero => intro s; simp
  | succ n ih =>
    intro s
    rw [Function.iterate_succ_apply, ih, timer_tick_once_sub, Nat.succ_mul]
    omega

end SrcITC

/-! ## OAM DMA bookkeeping (`src/backend/src/memory/dma.rs`; the standalone
crate's `memory/dma.rs` is consumed identically by its MMU) -/

/-- `DMAInfo`: source page and the countdown timer (initialised to `0xA0`). -/
structure DMAInfo where
  high_byte_addr : Nat
  timer : Nat
deriving DecidableEq, Repr

/-- `DMAInfo::new`. -/
def DMAInfo.mk_new (high_byte_addr : Nat) : DMAInfo :=
  { high_byte_addr := high_byte_addr, timer := 0xA0 }

/-! ## MMU, standalone crate (`src/src/memory/mod.rs`) -/

namespace SrcMMU

/-- The `BoxMBC` trait object of the standalone crate: `build_mbc` only ever
constructs `Simple` (`src/src/memory/simple.rs`) or `MBC1`
(`src/src/memory/mbc1.rs`). -/
inductive MBCBox where
  | simple (rom : Nat → Nat)
  | mbc1 (st : SrcMBC1.State)

/-- Dispatch of `MBC::read_memory`.  `Simple::read_memory` serves ROM for
`0x0100..=0x7FFF` and logs + returns `0xFF` everywhere else. -/
def mbc_read : MBCBox → Nat → Option Nat
  | MBCBox.simple rom, addr =>
    if 0x0100 ≤ addr ∧ addr ≤ 0x7FFF then some (rom addr) else some 0xFF
  | MBCBox.mbc1 st, addr => SrcMBC1.read_memory st addr

/-- Dispatch of `MBC::write_memory`.  `Simple::write_memory` only logs. -/
def mbc_write : MBCBox → Nat → Nat → Option MBCBox
  | MBCBox.simple rom, _, _ => some (MBCBox.simple rom)
  | MBCBox.mbc1 st, addr, v => (SrcMBC1.write_memory st addr v).map MBCBox.mbc1

/-- `MMU` state from `src/src/memory/mod.rs`.  The serial sink is modelled
as the list of bytes pushed so far. -/
structure State where
  bootstrap_rom : Nat → Nat
  mbc : MBCBox
  vram : Nat → Nat
  wram : Nat → Nat
  oam : Nat → Nat
  io_regs : Nat → Nat
  hram : Nat → Nat
  serial_out : List Nat
  itc : SrcITC.State
  waiting_dma : Option DMAInfo

/-- `MMU::read_io_reg`: joypad, timer and interrupt-flag registers are
forwarded to the interrupt controller, everything else is served from the
dense IO array. -/
def read_io_reg (s : State) (addr : Nat) : Nat :=
  if addr = 0xFF00 then SrcITC.read_joypad_reg s.itc
  else if addr = 0xFF04 then s.itc.divider_register
  else if addr = 0xFF05 then s.itc.timer_counter
  else if addr = 0xFF06 then s.itc.timer_modulo
  else if addr = 0xFF07 then s.itc.timer_control
  else if addr = 0xFF0F then s.itc.interrupt_flag
  else s.io_regs (addr - 0xFF00)

/-- `MMU::read_mounted_rom`.  The source tests the mount register with
`self.read_memory(0xFF50)`; `0xFF50` always dispatches to `read_io_reg`,
which is used directly here (see `src_read_memory_ff50`). -/
def read_mounted_rom (s : State) (addr : Nat) : Option Nat :=
  if read_io_reg s 0xFF50 ≠ 0 then mbc_read s.mbc addr
  else some (s.bootstrap_rom addr)

/-- `MMU::write_mounted_rom`: writes are forwarded to the cartridge only
once the boot ROM is unmounted; while mounted they are swallowed. -/
def write_mounted_rom (s : State) (addr value : Nat) : Option State :=
  if read_io_reg s 0xFF50 ≠ 0 then
    (mbc_write s.mbc addr value).map (fun m => { s with mbc := m })
  else some s

/-- `Memory::read_memory` for the standalone `MMU` (the match arms in
source order). -/
def read_memory (s : State) (addr : Nat) : Option Nat :=
  if addr ≤ 0x00FF then read_mounted_rom s addr
  else if addr ≤ 0x7FFF then mbc_read s.mbc addr
  else if addr ≤ 0x9FFF then some (s.vram (addr - 0x8000))
  else if addr ≤ 0xBFFF then mbc_read s.mbc addr
  else if addr ≤ 0xDFFF then some (s.wram (addr - 0xC000))
  else if addr ≤ 0xFDFF then some (s.wram (addr - 0xE000))
  else if addr ≤ 0xFE9F then some (s.oam (addr - 0xFE00))
  else if addr ≤ 0xFEFF then some 0xFF
  else if addr ≤ 0xFF7F then some (read_io_reg s addr)
  else if addr ≤ 0xFFFE then some (s.hram (addr - 0xFF80))
  else some s.itc.interrupt_enable

/-- `MMU::write_io_reg`: forwarded registers go to the interrupt
controller (`IF` is stored through `IntKind::from_bits_truncate`, whose
defined bits cover the whole byte); a write to `0xFF46` arms the OAM DMA
countdown when none is running; every non-forwarded register also lands in
the dense IO array. -/
def write_io_reg (s : State) (addr value : Nat) : State :=
  if addr = 0xFF00 then { s with itc := SrcITC.write_joypad_reg s.itc value }
  else if addr = 0xFF04 then { s with itc := { s.itc with divider_register := 0 } }
  else if addr = 0xFF05 then { s with itc := { s.itc with timer_counter := value } }
  else if addr = 0xFF06 then { s with itc := { s.itc with timer_modulo := value } }
  else if addr = 0xFF07 then { s with itc := { s.itc with timer_control := value } }
  else if addr = 0xFF0F then { s with itc := { s.itc with interrupt_flag := value &&& 0xFF } }
  else
    let s := if addr = 0xFF46 then
        (if s.waiting_dma.isSome then s else { s with waiting_dma := some (DMAInfo.mk_new value) })
      else s
    { s with io_regs := fun i => if i = addr - 0xFF00 then value else s.io_regs i }

/-- First phase of `Memory::write_memory`: the serial-output intercept for
`0x81` written to `0xFF02` (the byte pushed to the sink is
`read_memory(0xFF01)`, which dispatches to the IO array; see
`src_read_memory_ff01`). -/
def serial_intercept (s : State) (addr value : Nat) : State :=
  if addr = 0xFF02 ∧ value = 0x81 then
    { s with serial_out := s.serial_out ++ [read_io_reg s 0xFF01] }
  else s

/-- Second phase of `Memory::write_memory`: the match over target regions
(arms in source order). -/
def write_dispatch (s : State) (addr value : Nat) : Option State :=
  if addr ≤ 0x00FF then write_mounted_rom s addr value
  else if addr ≤ 0x7FFF then (mbc_write s.mbc addr value).map (fun m => { s with mbc := m })
  else if addr ≤ 0x9FFF then some { s with vram := fun i => if i = addr - 0x8000 then value else s.vram i }
  else if addr ≤ 0xBFFF then (mbc_write s.mbc addr value).map (fun m => { s with mbc := m })
  else if addr ≤ 0xDFFF then some { s with wram := fun i => if i = addr - 0xC000 then value else s.wram i }
  else if addr ≤ 0xFDFF then some { s with wram := fun i => if i = addr - 0xE000 then value else s.wram i }
  else if addr ≤ 0xFE9F then some { s with oam := fun i => if i = addr - 0xFE00 then value else s.oam i }
  else if addr ≤ 0xFEFF then some s
  else if addr ≤ 0xFF7F then some (write_io_reg s addr value)
  else if addr ≤ 0xFFFE then some { s with hram := fun i => if i = addr - 0xFF80 then value else s.hram i }
  else some { s with itc := { s.itc with interrupt_enable := value &&& 0xFF } }

/-- `Memory::write_memory` for the standalone `MMU`: serial intercept, then
region dispatch. -/
def write_memory (s : State) (addr value : Nat) : Option State :=
  write_dispatch (serial_intercept s addr value) addr value

theorem src_read_memory_ff50 (s : State) :
    read_memory s 0xFF50 = some (read_io_reg s 0xFF50) := by
  unfold read_memory
  norm_num

theorem src_read_memory_ff01 (s : State) :
    read_memory s 0xFF01 = some (read_io_reg s 0xFF01) := by
  unfold read_memory
  norm_num

theorem src_serial_intercept_skip (s : State) (addr value : Nat) (h : addr ≠ 0xFF02) :
    serial_intercept s addr value = s := by
  unfold serial_intercept
  rw [if_neg (by tauto)]

theorem src_write_echo (s : State) (addr value : Nat)
    (h : 0xE000 ≤ addr ∧ addr ≤ 0xFDFF) :
    write_memory s addr value =
      some { s with wram := fun i => if i = addr - 0xE000 then value else s.wram i } := by
  unfold write_memory write_dispatch
  rw [src_serial_intercept_skip s addr value (by omega)]
  rw [if_neg (by omega), if_neg (by omega), if_neg (by omega), if_neg (by omega),
    if_neg (by omega), if_pos (by omega)]

theorem src_write_wram (s : State) (addr value : Nat)
    (h : 0xC000 ≤ addr ∧ addr ≤ 0xDFFF) :
    write_memory s addr value =
      some { s with wram := fun i => if i = addr - 0xC000 then value else s.wram i } := by
  unfold write_memory write_dispatch
  rw [src_serial_intercept_skip s addr value (by omega)]
  rw [if_neg (by omega), if_neg (by omega), if_neg (by omega), if_neg (by omega),
    if_pos (by omega)]

theorem src_read_echo (s : State) (addr : Nat)
    (h : 0xE000 ≤ addr ∧ addr ≤ 0xFDFF) :
    read_memory s addr = some (s.wram (addr - 0xE000)) := by
  unfold read_memory
  rw [if_neg (by omega), if_neg (by omega), if_neg (by omega), if_neg (by omega),
    if_neg (by omega), if_pos (by omega)]

theorem src_read_wram (s : State) (addr : Nat)
    (h : 0xC000 ≤ addr ∧ addr ≤ 0xDFFF) :
    read_memory s addr = some (s.wram (addr - 0xC000)) := by
  unfold read_memory
  rw [if_neg (by omega), if_neg (by omega), if_neg (by omega), if_neg (by omega),
    if_pos (by omega)]

end SrcMMU

/-! ## Interrupt controller, backend crate -/

namespace BackITC

/-- Modelled from the spec: the backend crate's `interrupt.rs` is not among
the sources (only its callers in `src/backend/src/memory/mod.rs` are).
Register fields follow §4.2 of the specification and the standalone crate's
`InterruptController`, extended with the `cgb_mode` and
`requested_new_mode` fields the backend MMU reads and writes. -/
structure State where
  interrupt_enable : Nat
  interrupt_flag : Nat
  divider_register : Nat
  timer_counter : Nat
  timer_modulo : Nat
  timer_control : Nat
  cgb_mode : Bool
  requested_new_mode : Option Bool
  keys_state : SrcITC.Keys → Bool
  select_buttons : Bool
  select_directions : Bool

/-- Modelled from the spec: `read_joypad_reg` of the missing backend
`interrupt.rs`, using the byte builder shared with the standalone crate
(`SrcITC.read_joypad_bits`). -/
def read_joypad_reg (s : State) : Nat :=
  SrcITC.read_joypad_bits s.select_directions s.select_buttons s.keys_state

/-- Modelled from the spec: `write_joypad_reg` of the missing backend
`interrupt.rs` — the two select latches become the complement of bits 4
and 5 of the written byte (§4.2). -/
def write_joypad_reg (s : State) (v : Nat) : State :=
  let flags := (0xFF ^^^ (v % 256)) &&& 0b111111
  { s with select_directions := Nat.testBit flags 4,
           select_buttons := Nat.testBit flags 5 }

end BackITC

/-! ## MMU, backend crate (`src/backend/src/memory/mod.rs`) -/

namespace BackMMU

/-- The `BoxMBC` of the backend crate: `read_cartridge`
(`src/backend/src/mbc/mod.rs`) only ever constructs `Simple` or `MBC1`.
The backend `Simple` source file is not among the sources; it is modelled
after the standalone crate's `Simple` (NoMBC: reads serve ROM for
`0x0100..=0x7FFF` and `0xFF` elsewhere, writes only log). -/
inductive MBCBox where
  | simple (rom : Nat → Nat)
  | mbc1 (st : BackMBC1.State)

/-- Dispatch of `MBC::read_memory` over the two cartridge kinds. -/
def mbc_read : MBCBox → Nat → Option Nat
  | MBCBox.simple rom, addr =>
    if 0x0100 ≤ addr ∧ addr ≤ 0x7FFF then some (rom addr) else some 0xFF
  | MBCBox.mbc1 st, addr => BackMBC1.read_memory st addr

/-- Dispatch of `MBC::write_memory` over the two cartridge kinds. -/
def mbc_write : MBCBox → Nat → Nat → Option MBCBox
  | MBCBox.simple rom, _, _ => some (MBCBox.simple rom)
  | MBCBox.mbc1 st, addr, v => (BackMBC1.write_memory st addr v).map MBCBox.mbc1

/-- `MMU` state from `src/backend/src/memory/mod.rs`: two VRAM banks and
eight WRAM banks are bank-indexed byte functions; the serial sink is the
list of bytes pushed so far. -/
structure State where
  bootstrap_rom : Nat → Nat
  mbc : MBCBox
  vram : Nat → Nat → Nat
  vram_bank_index : Nat
  wram : Nat → Nat → Nat
  wram_second_bank_index : Nat
  oam : Nat → Nat
  io_regs : Nat → Nat
  hram : Nat → Nat
  serial_out : List Nat
  itc : BackITC.State
  waiting_dma : Option DMAInfo

/-- `MMU::read_io_reg` (backend): forwarded ITC registers, the CGB bank
and speed-switch registers (`(!0b1) = 0xFE`, `(!0b11) = 0xFC` on a byte),
then the dense IO array. -/
def read_io_reg (s : State) (addr : Nat) : Nat :=
  if addr = 0xFF00 then BackITC.read_joypad_reg s.itc
  else if addr = 0xFF04 then s.itc.divider_register
  else if addr = 0xFF05 then s.itc.timer_counter
  else if addr = 0xFF06 then s.itc.timer_modulo
  else if addr = 0xFF07 then s.itc.timer_control
  else if addr = 0xFF0F then s.itc.interrupt_flag
  else if addr = 0xFF4F then 0xFE ||| s.vram_bank_index
  else if addr = 0xFF70 then 0xFC ||| s.wram_second_bank_index
  else if addr = 0xFF4D then
    (((if s.itc.cgb_mode then 1 else 0) <<< 7) |||
      (if s.itc.requested_new_mode.isSome then 1 else 0))
  else s.io_regs (addr - 0xFF00)

/-- `MMU::read_mounted_rom` (backend).  The source tests the mount register
with `self.read_memory(0xFF50)`; `0xFF50` always dispatches to
`read_io_reg`, which is used directly here (see `back_read_memory_ff50`). -/
def read_mounted_rom (s : State) (addr : Nat) : Option Nat :=
  if read_io_reg s 0xFF50 ≠ 0 then mbc_read s.mbc addr
  else some (s.bootstrap_rom addr)

/-- `MMU::write_mounted_rom` (backend). -/
def write_mounted_rom (s : State) (addr value : Nat) : Option State :=
  if read_io_reg s 0xFF50 ≠ 0 then
    (mbc_write s.mbc addr value).map (fun m => { s with mbc := m })
  else some s

/-- `MMU::switch_vram_bank`: outside CGB mode the switch is only logged. -/
def switch_vram_bank (s : State) (idx : Nat) : State :=
  if s.itc.cgb_mode = false then s else { s with vram_bank_index := idx }

/-- `MMU::switch_wram_bank`: outside CGB mode the switch is only logged. -/
def switch_wram_bank (s : State) (idx : Nat) : State :=
  if s.itc.cgb_mode = false then s else { s with wram_second_bank_index := idx }

/-- `Memory::read_memory` for the backend `MMU` (match arms in source
order).  The `0xE000..=0xFDFF` arm recurses with `addr - 0xE000`. -/
def read_memory (s : State) (addr : Nat) : Option Nat :=
  if h1 : addr ≤ 0x00FF then read_mounted_rom s addr
  else if h2 : addr ≤ 0x7FFF then mbc_read s.mbc addr
  else if h3 : addr ≤ 0x9FFF then some (s.vram s.vram_bank_index (addr - 0x8000))
  else if h4 : addr ≤ 0xBFFF then mbc_read s.mbc addr
  else if h5 : addr ≤ 0xCFFF then some (s.wram 0 (addr - 0xC000))
  else if h6 : addr ≤ 0xDFFF then some (s.wram s.wram_second_bank_index (addr - 0xC000))
  else if h7 : addr ≤ 0xFDFF then read_memory s (addr - 0xE000)
  else if addr ≤ 0xFE9F then some (s.oam (addr - 0xFE00))
  else if addr ≤ 0xFEFF then some 0xFF
  else if addr ≤ 0xFF7F then some (read_io_reg s addr)
  else if addr ≤ 0xFFFE then some (s.hram (addr - 0xFF80))
  else some s.itc.interrupt_enable
termination_by addr
decreasing_by omega

/-- `MMU::write_io_reg` (backend). -/
def write_io_reg (s : State) (addr value : Nat) : State :=
  if addr = 0xFF00 then { s with itc := BackITC.write_joypad_reg s.itc value }
  else if addr = 0xFF04 then { s with itc := { s.itc with divider_register := 0 } }
  else if addr = 0xFF05 then { s with itc := { s.itc with timer_counter := value } }
  else if addr = 0xFF06 then { s with itc := { s.itc with timer_modulo := value } }
  else if addr = 0xFF07 then { s with itc := { s.itc with timer_control := value } }
  else if addr = 0xFF0F then { s with itc := { s.itc with interrupt_flag := value &&& 0xFF } }
  else if addr = 0xFF4F then switch_vram_bank s (0x1 &&& value)
  else if addr = 0xFF70 then
    switch_wram_bank s (if 0b11 &&& value = 0 then 1 else 0b11 &&& value)
  else if addr = 0xFF4D then
    { s with itc := { s.itc with requested_new_mode := some ((value &&& 0b1) = 0b1) } }
  else
    let t := if addr = 0xFF46 then
        (if s.waiting_dma.isSome then s
         else { s with waiting_dma := some (DMAInfo.mk_new value) })
      else s
    { t with io_regs := fun i => if i = addr - 0xFF00 then value else t.io_regs i }

/-- Serial-output intercept at the top of the backend
`Memory::write_memory` (the emitted byte is `read_memory(0xFF01)`, which
dispatches to the IO array; see `back_read_memory_ff01`). -/
def serial_intercept (s : State) (addr value : Nat) : State :=
  if addr = 0xFF02 ∧ value = 0x81 then
    { s with serial_out := s.serial_out ++ [read_io_reg s 0xFF01] }
  else s

/-- The region match of the backend `Memory::write_memory` (arms in source
order).  The `0xE000..=0xFDFF` arm of the source recurses into the full
`write_memory (addr - 0xE000)`, i.e. the serial intercept followed by this
dispatch; that one-step composition is inlined at the recursive call
(`write_memory` below is exactly this composition). -/
def write_dispatch (s : State) (addr value : Nat) : Option State :=
  if h1 : addr ≤ 0x00FF then write_mounted_rom s addr value
  else if h2 : addr ≤ 0x7FFF then
    (mbc_write s.mbc addr value).map (fun m => { s with mbc := m })
  else if h3 : addr ≤ 0x9FFF then
    some { s with vram := fun bk i =>
      if bk = s.vram_bank_index ∧ i = addr - 0x8000 then value else s.vram bk i }
  else if h4 : addr ≤ 0xBFFF then
    (mbc_write s.mbc addr value).map (fun m => { s with mbc := m })
  else if h5 : addr ≤ 0xCFFF then
    some { s with wram := fun bk i =>
      if bk = 0 ∧ i = addr - 0xC000 then value else s.wram bk i }
  else if h6 : addr ≤ 0xDFFF then
    some { s with wram := fun bk i =>
      if bk = s.wram_second_bank_index ∧ i = addr - 0xC000 then value else s.wram bk i }
  else if h7 : addr ≤ 0xFDFF then
    write_dispatch (serial_intercept s (addr - 0xE000) value) (addr - 0xE000) value
  else if addr ≤ 0xFE9F then
    some { s with oam := fun i => if i = addr - 0xFE00 then value else s.oam i }
  else if addr ≤ 0xFEFF then some s
  else if addr ≤ 0xFF7F then some (write_io_reg s addr value)
  else if addr ≤ 0xFFFE then
    some { s with hram := fun i => if i = addr - 0xFF80 then value else s.hram i }
  else
    some { s with itc := { s.itc with interrupt_enable := value &&& 0xFF } }
termination_by addr
decreasing_by omega

/-- `Memory::write_memory` for the backend `MMU`: the serial-output
intercept, then the region dispatch. -/
def write_memory (s : State) (addr value : Nat) : Option State :=
  write_dispatch (serial_intercept s addr value) addr value

/-- The OAM DMA copy loop of `Memory::tick` (backend): `for offset in
0x00..0xA0 { self.write_memory(0xFE00 + offset, self.read_memory(start_addr
+ offset)) }`, processing `count` offsets starting at `off`. -/
def dma_loop (start : Nat) : State → Nat → Nat → Option State
  | s, _off, 0 => some s
  | s, off, count + 1 =>
    match read_memory s (start + off) with
    | none => none
    | some v =>
      match write_memory s (0xFE00 + off) v with
      | none => none
      | some s' => dma_loop start s' (off + 1) count

/-- `Memory::tick` for the backend `MMU`: decrement the DMA countdown; on
reaching zero perform the burst copy of the 160 bytes and clear the DMA.
A decrement of an exhausted countdown (`timer = 0`, unreachable from the
MMU) would underflow the `u8` in the source and is modelled as `none`. -/
def tick (s : State) : Option State :=
  match s.waiting_dma with
  | none => some s
  | some d =>
    if d.timer = 0 then none
    else
      let timer := d.timer - 1
      if timer = 0 then
        match dma_loop (d.high_byte_addr <<< 8)
            { s with waiting_dma := some { high_byte_addr := d.high_byte_addr, timer := timer } }
            0 0xA0 with
        | none => none
        | some s' => some { s' with waiting_dma := none }
      else some { s with waiting_dma := some { high_byte_addr := d.high_byte_addr, timer := timer } }

/-- Iterated `tick` in the `Option` monad. -/
def tickN : Nat → State → Option State
  | 0, s => some s
  | n + 1, s =>
    match tick s with
    | none => none
    | some s' => tickN n s'

end BackMMU

/-! ## Backend MMU lemmas -/

namespace BackMMU

theorem read_memory_ff50 (s : State) :
    read_memory s 0xFF50 = some (read_io_reg s 0xFF50) := by
  rw [read_memory]
  norm_num

theorem read_memory_ff01 (s : State) :
    read_memory s 0xFF01 = some (read_io_reg s 0xFF01) := by
  rw [read_memory]
  norm_num

theorem serial_intercept_skip (s : State) (addr value : Nat) (h : addr ≠ 0xFF02) :
    serial_intercept s addr value = s := by
  unfold serial_intercept
  rw [if_neg (by tauto)]

theorem read_oam_reg (s : State) (addr : Nat) (h1 : 0xFE00 ≤ addr) (h2 : addr ≤ 0xFE9F) :
    read_memory s addr = some (s.oam (addr - 0xFE00)) := by
  rw [read_memory]
  rw [dif_neg (by omega), dif_neg (by omega), dif_neg (by omega), dif_neg (by omega),
    dif_neg (by omega), dif_neg (by omega), dif_neg (by omega), if_pos (by omega)]

theorem write_dispatch_oam (s : State) (addr value : Nat) (h1 : 0xFE00 ≤ addr) (h2 : addr ≤ 0xFE9F) :
    write_dispatch s addr value =
      some { s with oam := fun i => if i = addr - 0xFE00 then value else s.oam i } := by
  rw [write_dispatch]
  rw [dif_neg (by omega), dif_neg (by omega), dif_neg (by omega), dif_neg (by omega),
    dif_neg (by omega), dif_neg (by omega), dif_neg (by omega), if_pos (by omega)]

theorem write_oam_reg (s : State) (addr value : Nat) (h1 : 0xFE00 ≤ addr) (h2 : addr ≤ 0xFE9F) :
    write_memory s addr value =
      some { s with oam := fun i => if i = addr - 0xFE00 then value else s.oam i } := by
  rw [write_memory, serial_intercept_skip s addr value (by omega)]
  exact write_dispatch_oam s addr value h1 h2

theorem write_dispatch_oam_update (s : State) (g : Nat → Nat) (off value : Nat) (hoff : off < 0xA0) :
    write_memory { s with oam := g } (0xFE00 + off) value =
      some { s with oam := fun i => if i = off then value else g i } := by
  rw [write_oam_reg { s with oam := g } (0xFE00 + off) value (by omega) (by omega)]
  have hix : 0xFE00 + off - 0xFE00 = off := by omega
  rw [hix]

theorem read_mem_boot (s : State) (addr : Nat) (h : addr ≤ 0xFF) :
    read_memory s addr = read_mounted_rom s addr := by
  rw [read_memory]
  rw [dif_pos (by omega)]

theorem read_mem_lorom (s : State) (addr : Nat) (h : 0x100 ≤ addr ∧ addr ≤ 0x7FFF) :
    read_memory s addr = mbc_read s.mbc addr := by
  rw [read_memory]
  rw [dif_neg (by omega), dif_pos (by omega)]

theorem read_mem_vram (s : State) (addr : Nat) (h : 0x8000 ≤ addr ∧ addr ≤ 0x9FFF) :
    read_memory s addr = some (s.vram s.vram_bank_index (addr - 0x8000)) := by
  rw [read_memory]
  rw [dif_neg (by omega), dif_neg (by omega), dif_pos (by omega)]

theorem read_mem_extram (s : State) (addr : Nat) (h : 0xA000 ≤ addr ∧ addr ≤ 0xBFFF) :
    read_memory s addr = mbc_read s.mbc addr := by
  rw [read_memory]
  rw [dif_neg (by omega), dif_neg (by omega), dif_neg (by omega), dif_pos (by omega)]

theorem read_mem_wram0 (s : State) (addr : Nat) (h : 0xC000 ≤ addr ∧ addr ≤ 0xCFFF) :
    read_memory s addr = some (s.wram 0 (addr - 0xC000)) := by
  rw [read_memory]
  rw [dif_neg (by omega), dif_neg (by omega), dif_neg (by omega), dif_neg (by omega),
    dif_pos (by omega)]

theorem read_mem_wramN (s : State) (addr : Nat) (h : 0xD000 ≤ addr ∧ addr ≤ 0xDFFF) :
    read_memory s addr = some (s.wram s.wram_second_bank_index (addr - 0xC000)) := by
  rw [read_memory]
  rw [dif_neg (by omega), dif_neg (by omega), dif_neg (by omega), dif_neg (by omega),
    dif_neg (by omega), dif_pos (by omega)]

theorem read_mem_echo (s : State) (addr : Nat) (h : 0xE000 ≤ addr ∧ addr ≤ 0xFDFF) :
    read_memory s addr = read_memory s (addr - 0xE000) := by
  conv_lhs => rw [read_memory]
  rw [dif_neg (by omega), dif_neg (by omega), dif_neg (by omega), dif_neg (by omega),
    dif_neg (by omega), dif_neg (by omega), dif_pos (by omega)]

theorem read_mem_unusable (s : State) (addr : Nat) (h : 0xFEA0 ≤ addr ∧ addr ≤ 0xFEFF) :
    read_memory s addr = some 0xFF := by
  rw [read_memory]
  rw [dif_neg (by omega), dif_neg (by omega), dif_neg (by omega), dif_neg (by omega),
    dif_neg (by omega), dif_neg (by omega), dif_neg (by omega), if_neg (by omega),
    if_pos (by omega)]

theorem read_mem_io (s : State) (addr : Nat) (h : 0xFF00 ≤ addr ∧ addr ≤ 0xFF7F) :
    read_memory s addr = some (read_io_reg s addr) := by
  rw [read_memory]
  rw [dif_neg (by omega), dif_neg (by omega), dif_neg (by omega), dif_neg (by omega),
    dif_neg (by omega), dif_neg (by omega), dif_neg (by omega), if_neg (by omega),
    if_neg (by omega), if_pos (by omega)]

theorem read_mem_hram (s : State) (addr : Nat) (h : 0xFF80 ≤ addr ∧ addr ≤ 0xFFFE) :
    read_memory s addr = some (s.hram (addr - 0xFF80)) := by
  rw [read_memory]
  rw [dif_neg (by omega), dif_neg (by omega), dif_neg (by omega), dif_neg (by omega),
    dif_neg (by omega), dif_neg (by omega), dif_neg (by omega), if_neg (by omega),
    if_neg (by omega), if_neg (by omega), if_pos (by omega)]

theorem read_mem_ie (s : State) (addr : Nat) (h : 0xFFFF ≤ addr) :
    read_memory s addr = some s.itc.interrupt_enable := by
  rw [read_memory]
  rw [dif_neg (by omega), dif_neg (by omega), dif_neg (by omega), dif_neg (by omega),
    dif_neg (by omega), dif_neg (by omega), dif_neg (by omega), if_neg (by omega),
    if_neg (by omega), if_neg (by omega), if_neg (by omega)]

theorem read_io_reg_congr (s t : State) (hio : s.io_regs = t.io_regs)
    (hitc : s.itc = t.itc) (hvi : s.vram_bank_index = t.vram_bank_index)
    (hwi : s.wram_second_bank_index = t.wram_second_bank_index) (addr : Nat) :
    read_io_reg s addr = read_io_reg t addr := by
  unfold read_io_reg
  rw [hio, hitc, hvi, hwi]

/-- `read_memory` only depends on the byte stores, bank indices and ITC
registers: two states agreeing on those agree on every read outside the
OAM window (the echo arm recurses below `0x1E00`, also outside it). -/
theorem read_congr (s t : State) (hb : s.bootstrap_rom = t.bootstrap_rom)
    (hm : s.mbc = t.mbc) (hv : s.vram = t.vram) (hvi : s.vram_bank_index = t.vram_bank_index)
    (hw : s.wram = t.wram) (hwi : s.wram_second_bank_index = t.wram_second_bank_index)
    (hio : s.io_regs = t.io_regs) (hh : s.hram = t.hram) (hitc : s.itc = t.itc) :
    ∀ (n addr : Nat), addr = n → (addr < 0xFE00 ∨ 0xFE9F < addr) →
      read_memory s addr = read_memory t addr := by
  intro n
  induction n using Nat.strong_induction_on with
  | _ n ih =>
    intro addr hn hout
    by_cases c1 : addr ≤ 0xFF
    · rw [read_mem_boot s addr c1, read_mem_boot t addr c1]
      unfold read_mounted_rom
      rw [read_io_reg_congr s t hio hitc hvi hwi, hm, hb]
    · by_cases c2 : addr ≤ 0x7FFF
      · rw [read_mem_lorom s addr (by omega), read_mem_lorom t addr (by omega), hm]
      · by_cases c3 : addr ≤ 0x9FFF
        · rw [read_mem_vram s addr (by omega), read_mem_vram t addr (by omega), hv, hvi]
        · by_cases c4 : addr ≤ 0xBFFF
          · rw [read_mem_extram s addr (by omega), read_mem_extram t addr (by omega), hm]
          · by_cases c5 : addr ≤ 0xCFFF
            · rw [read_mem_wram0 s addr (by omega), read_mem_wram0 t addr (by omega), hw]
            · by_cases c6 : addr ≤ 0xDFFF
              · rw [read_mem_wramN s addr (by omega), read_mem_wramN t addr (by omega), hw, hwi]
              · by_cases c7 : addr ≤ 0xFDFF
                · rw [read_mem_echo s addr (by omega), read_mem_echo t addr (by omega)]
                  exact ih (addr - 0xE000) (by omega) (addr - 0xE000) rfl (by omega)
                · by_cases c8 : addr ≤ 0xFE9F
                  · omega
                  · by_cases c9 : addr ≤ 0xFEFF
                    · rw [read_mem_unusable s addr (by omega), read_mem_unusable t addr (by omega)]
                    · by_cases c10 : addr ≤ 0xFF7F
                      · rw [read_mem_io s addr (by omega), read_mem_io t addr (by omega),
                          read_io_reg_congr s t hio hitc hvi hwi]
                      · by_cases c11 : addr ≤ 0xFFFE
                        · rw [read_mem_hram s addr (by omega), read_mem_hram t addr (by omega), hh]
                        · rw [read_mem_ie s addr (by omega), read_mem_ie t addr (by omega), hitc]

theorem mbc_read_total (m : MBCBox) (addr : Nat)
    (h : addr ≤ 0x7FFF ∨ (0xA000 ≤ addr ∧ addr ≤ 0xBFFF)) :
    ∃ v, mbc_read m addr = some v := by
  cases m with
  | simple rom =>
    simp only [mbc_read]
    split_ifs <;> exact ⟨_, rfl⟩
  | mbc1 st =>
    simp only [mbc_read]
    unfold BackMBC1.read_memory
    split_ifs <;> first | exact ⟨_, rfl⟩ | omega

/-- Every backend MMU read produces a byte: the only fallible arm is the
cartridge, which the MMU only consults on addresses the MBC covers. -/
theorem read_total (s : State) : ∀ (n addr : Nat), addr = n → ∃ v, read_memory s addr = some v := by
  intro n
  induction n using Nat.strong_induction_on with
  | _ n ih =>
    intro addr hn
    by_cases c1 : addr ≤ 0xFF
    · rw [read_mem_boot s addr c1]
      unfold read_mounted_rom
      split_ifs
      · exact mbc_read_total s.mbc addr (by omega)
      · exact ⟨_, rfl⟩
    · by_cases c2 : addr ≤ 0x7FFF
      · rw [read_mem_lorom s addr (by omega)]
        exact mbc_read_total s.mbc addr (by omega)
      · by_cases c3 : addr ≤ 0x9FFF
        · rw [read_mem_vram s addr (by omega)]; exact ⟨_, rfl⟩
        · by_cases c4 : addr ≤ 0xBFFF
          · rw [read_mem_extram s addr (by omega)]
            exact mbc_read_total s.mbc addr (by omega)
          · by_cases c5 : addr ≤ 0xCFFF
            · rw [read_mem_wram0 s addr (by omega)]; exact ⟨_, rfl⟩
            · by_cases c6 : addr ≤ 0xDFFF
              · rw [read_mem_wramN s addr (by omega)]; exact ⟨_, rfl⟩
              · by_cases c7 : addr ≤ 0xFDFF
                · rw [read_mem_echo s addr (by omega)]
                  exact ih (addr - 0xE000) (by omega) (addr - 0xE000) rfl
                · by_cases c8 : addr ≤ 0xFE9F
                  · rw [read_oam_reg s addr (by omega) (by omega)]; exact ⟨_, rfl⟩
                  · by_cases c9 : addr ≤ 0xFEFF
                    · rw [read_mem_unusable s addr (by omega)]; exact ⟨_, rfl⟩
                    · by_cases c10 : addr ≤ 0xFF7F
                      · rw [read_mem_io s addr (by omega)]; exact ⟨_, rfl⟩
                      · by_cases c11 : addr ≤ 0xFFFE
                        · rw [read_mem_hram s addr (by omega)]; exact ⟨_, rfl⟩
                        · rw [read_mem_ie s addr (by omega)]; exact ⟨_, rfl⟩

theorem write_dispatch_boot (s : State) (addr value : Nat) (h : addr ≤ 0xFF) :
    write_dispatch s addr value = write_mounted_rom s addr value := by
  rw [write_dispatch]
  rw [dif_pos h]

theorem write_dispatch_echo (s : State) (addr value : Nat)
    (h : 0xE000 ≤ addr ∧ addr ≤ 0xFDFF) :
    write_dispatch s addr value =
      write_dispatch (serial_intercept s (addr - 0xE000) value) (addr - 0xE000) value := by
  conv_lhs => rw [write_dispatch]
  rw [dif_neg (by omega), dif_neg (by omega), dif_neg (by omega), dif_neg (by omega),
    dif_neg (by omega), dif_neg (by omega), dif_pos (by omega)]

theorem write_dispatch_wram0 (s : State) (addr value : Nat)
    (h : 0xC000 ≤ addr ∧ addr ≤ 0xCFFF) :
    write_dispatch s addr value =
      some { s with wram := fun bk i =>
        if bk = 0 ∧ i = addr - 0xC000 then value else s.wram bk i } := by
  rw [write_dispatch]
  rw [dif_neg (by omega), dif_neg (by omega), dif_neg (by omega), dif_neg (by omega),
    dif_pos (by omega)]

theorem write_ff46 (s : State) (H : Nat) (hdma : s.waiting_dma = none) :
    write_memory s 0xFF46 H =
      some { s with waiting_dma := some (DMAInfo.mk_new H),
                    io_regs := fun i => if i = 0x46 then H else s.io_regs i } := by
  rw [write_memory, serial_intercept_skip s 0xFF46 H (by omega)]
  rw [write_dispatch]
  rw [dif_neg (by omega), dif_neg (by omega), dif_neg (by omega), dif_neg (by omega),
    dif_neg (by omega), dif_neg (by omega), dif_neg (by omega), if_neg (by omega),
    if_neg (by omega), if_pos (by omega)]
  unfold write_io_reg
  norm_num [hdma]

theorem tick_countdown (s : State) (H t : Nat) (hs : s.waiting_dma = some ⟨H, t⟩)
    (ht : 2 ≤ t) :
    tick s = some { s with waiting_dma := some ⟨H, t - 1⟩ } := by
  unfold tick
  rw [hs]
  dsimp only
  rw [if_neg (by omega), if_neg (by omega)]

theorem tick_copy (s : State) (H : Nat) (sC : State) (hs : s.waiting_dma = some ⟨H, 1⟩)
    (hloop : dma_loop (H <<< 8) { s with waiting_dma := some ⟨H, 0⟩ } 0 0xA0 = some sC) :
    tick s = some { sC with waiting_dma := none } := by
  unfold tick
  rw [hs]
  dsimp only
  rw [if_neg (by omega), if_pos rfl, hloop]

theorem tickN_bind_front (n : Nat) (s : State) :
    tickN (n + 1) s = (tick s).bind (tickN n) := by
  show (match tick s with | none => none | some s' => tickN n s' : Option State)
      = (tick s).bind (tickN n)
  cases tick s <;> rfl

theorem tickN_step (n : Nat) (s s' : State) (h : tick s = some s') :
    tickN (n + 1) s = tickN n s' := by
  rw [tickN_bind_front, h]
  rfl

theorem tickN_back : ∀ (n : Nat) (s : State), tickN (n + 1) s = (tickN n s).bind tick := by
  intro n
  induction n with
  | zero =>
    intro s
    rw [tickN_bind_front]
    show (tick s).bind some = tick s
    cases tick s <;> rfl
  | succ n ih =>
    intro s
    rw [tickN_bind_front (n + 1) s]
    conv_rhs => rw [tickN_bind_front n s]
    cases tick s with
    | none => rfl
    | some s1 =>
      show tickN (n + 1) s1 = ((tickN n s1).bind tick : Option State)
      exact ih s1

theorem tickN_countdown :
    ∀ (k : Nat) (s : State) (H t : Nat), s.waiting_dma = some ⟨H, t⟩ → k < t →
      tickN k s = some { s with waiting_dma := some ⟨H, t - k⟩ } := by
  intro k
  induction k with
  | zero =>
    intro s H t hs _
    show some s = some { s with waiting_dma := some ⟨H, t - 0⟩ }
    rw [Nat.sub_zero, ← hs]
  | succ k ih =>
    intro s H t hs hk
    have h1 : tick s = some { s with waiting_dma := some ⟨H, t - 1⟩ } :=
      tick_countdown s H t hs (by omega)
    rw [tickN_step k s _ h1]
    rw [ih { s with waiting_dma := some ⟨H, t - 1⟩ } H (t - 1) rfl (by omega)]
    have he : t - 1 - k = t - (k + 1) := by omega
    rw [he]

theorem dma_loop_fe (sC : State) :
    ∀ (count off : Nat), off + count ≤ 0xA0 → dma_loop 0xFE00 sC off count = some sC := by
  intro count
  induction count with
  | zero => intro off _; rfl
  | succ count ih =>
    intro off h
    have hoff : off < 0xA0 := by omega
    have hix : 0xFE00 + off - 0xFE00 = off := by omega
    have hr : read_memory sC (0xFE00 + off) = some (sC.oam off) := by
      rw [read_oam_reg sC (0xFE00 + off) (by omega) (by omega), hix]
    have hfun : (fun i => if i = off then sC.oam off else sC.oam i) = sC.oam := by
      funext i
      split
      · rename_i hi; rw [hi]
      · rfl
    have hw : write_memory sC (0xFE00 + off) (sC.oam off) = some sC := by
      rw [write_oam_reg sC (0xFE00 + off) _ (by omega) (by omega), hix, hfun]
    simp only [dma_loop]
    rw [hr]
    dsimp only
    rw [hw]
    exact ih (off + 1) (by omega)

theorem dma_loop_frame (sC : State) (start : Nat)
    (hout : ∀ j, j < 0xA0 → (start + j < 0xFE00 ∨ 0xFE9F < start + j)) :
    ∀ (count off : Nat) (g : Nat → Nat), off + count ≤ 0xA0 →
      ∃ g', dma_loop start { sC with oam := g } off count = some { sC with oam := g' } ∧
        (∀ i, off ≤ i → i < off + count → some (g' i) = read_memory sC (start + i)) ∧
        (∀ i, i < off ∨ off + count ≤ i → g' i = g i) := by
  intro count
  induction count with
  | zero =>
    intro off g _
    exact ⟨g, rfl, fun i h1 h2 => by omega, fun i _ => rfl⟩
  | succ count ih =>
    intro off g hle
    have hoff : off < 0xA0 := by omega
    have hr : read_memory { sC with oam := g } (start + off) = read_memory sC (start + off) :=
      read_congr { sC with oam := g } sC rfl rfl rfl rfl rfl rfl rfl rfl rfl
        (start + off) (start + off) rfl (hout off hoff)
    obtain ⟨v, hv⟩ := read_total sC (start + off) (start + off) rfl
    have hw := write_dispatch_oam_update sC g off v hoff
    obtain ⟨g', hloop, hin, hrest⟩ := ih (off + 1) (fun i => if i = off then v else g i) (by omega)
    refine ⟨g', ?_, ?_, ?_⟩
    · simp only [dma_loop]
      rw [hr, hv]
      dsimp only
      rw [hw]
      exact hloop
    · intro i hi1 hi2
      by_cases hieq : i = off
      · subst hieq
        have hgi : g' i = v := by
          rw [hrest i (Or.inl (by omega))]
          rw [if_pos rfl]
        rw [hgi, hv]
      · exact hin i (by omega) (by omega)
    · intro i hi
      rw [hrest i (by omega)]
      rw [if_neg (by omega)]

end BackMMU

/-! ## PPU scanline machine (`src/src/ppu/mod.rs`) -/

namespace SrcPPU

/-- `Mode` from `src/src/ppu/mod.rs`. -/
inductive Mode where
  | hblank | vblank | oamSearch | lcdTransfer
deriving DecidableEq, Repr

/-- Constants from `src/src/ppu/mod.rs`: `SCREEN_HEIGHT = 144`,
`SCAN_LINE_COUNT = 154`, `DOT_PER_LINE_COUNT = 80 + 172 + 204 = 456`,
`HBLANK_START = 172 + 80 = 252`. -/
def SCREEN_HEIGHT : Nat := 144
def SCAN_LINE_COUNT : Nat := SCREEN_HEIGHT + 10
def DOT_PER_LINE_COUNT : Nat := 80 + 172 + 204
def HBLANK_START : Nat := 172 + 80

/-- The `PPU` state restricted to the fields that feed back into `LY` and
the interrupt controller: `dot` is `current_dot_in_line` and `ly` the LY
byte at `0xFF44` (written only by `next_dot`).  The frame buffer, FIFO and
fetcher state of `PPU::cycle`, and the STAT byte written by
`update_status_reg`, are omitted: none of them ever writes LY, the dot
counter, or the interrupt controller.  `prev_mode` belongs to the modelled
`ppu_mode_update` below. -/
@[ext]
structure PPU where
  dot : Nat
  ly : Nat
  itc : SrcITC.State
  prev_mode : Option Mode

/-- `PPU::current_mode`: VBlank whenever the current line has reached
`SCREEN_HEIGHT`, otherwise OAM search / transfer / HBlank by dot. -/
def current_mode (p : PPU) : Mode :=
  if SCREEN_HEIGHT ≤ p.ly then Mode.vblank
  else if p.dot < 80 then Mode.oamSearch
  else if p.dot < HBLANK_START then Mode.lcdTransfer
  else Mode.hblank

/-- `PPU::next_dot`: advance the dot; at 456 wrap the dot, advance the
line and wrap it at 154, storing the new line into LY. -/
def next_dot (p : PPU) : PPU :=
  let dot := p.dot + 1
  if dot = DOT_PER_LINE_COUNT then
    let line := p.ly + 1
    let line := if line = SCAN_LINE_COUNT then 0 else line
    { p with dot := 0, ly := line }
  else { p with dot := dot }

/-- Modelled from the spec: `InterruptController::ppu_mode_update`, called
on every `PPU::cycle` (src/src/ppu/mod.rs line 139), is missing from the
sources.  Per §4.5 the PPU triggers the VBlank interrupt via the ITC on
the first dot of scanline 144, i.e. exactly on the transition into VBlank
mode; the controller keeps the previously seen mode and fires
`trigger_vblank_int` (real code, `src/src/interrupt.rs`) on a rising edge
into VBlank.  The STAT-condition part of the update touches neither LY nor
the VBlank state and is not modelled. -/
def ppu_mode_update (itc : SrcITC.State) (prev : Option Mode) (mode : Mode) :
    SrcITC.State × Option Mode :=
  if mode = Mode.vblank ∧ prev ≠ some Mode.vblank then
    (SrcITC.trigger_vblank_int itc, some mode)
  else (itc, some mode)

/-- One `PPU::cycle`, restricted as described on `PPU`: the
`ppu_mode_update` call with the current mode, then `next_dot`. -/
def cycle (p : PPU) : PPU :=
  let r := ppu_mode_update p.itc p.prev_mode (current_mode p)
  next_dot { p with itc := r.1, prev_mode := r.2 }

/-- The modelled `ppu_mode_update` fires the VBlank interrupt during this
cycle exactly when this predicate holds of the pre-cycle state. -/
def vblank_edge (p : PPU) : Prop :=
  current_mode p = Mode.vblank ∧ p.prev_mode ≠ some Mode.vblank

/-- The PPU state at the first dot of a frame. -/
def frame_start (itc : SrcITC.State) (pm : Option Mode) : PPU :=
  { dot := 0, ly := 0, itc := itc, prev_mode := pm }

theorem next_dot_dot (p : PPU) :
    (next_dot p).dot = if p.dot + 1 = 456 then 0 else p.dot + 1 := by
  unfold next_dot DOT_PER_LINE_COUNT
  dsimp only
  split <;> rfl

theorem next_dot_ly (p : PPU) :
    (next_dot p).ly = if p.dot + 1 = 456
      then (if p.ly + 1 = 154 then 0 else p.ly + 1) else p.ly := by
  unfold next_dot DOT_PER_LINE_COUNT SCAN_LINE_COUNT SCREEN_HEIGHT
  dsimp only
  split <;> rfl

theorem next_dot_itc (p : PPU) : (next_dot p).itc = p.itc := by
  unfold next_dot
  dsimp only
  split <;> rfl

theorem next_dot_prev (p : PPU) : (next_dot p).prev_mode = p.prev_mode := by
  unfold next_dot
  dsimp only
  split <;> rfl

theorem ppu_mode_update_fst (itc : SrcITC.State) (prev : Option Mode) (m : Mode) :
    (ppu_mode_update itc prev m).1 =
      if m = Mode.vblank ∧ prev ≠ some Mode.vblank
      then SrcITC.trigger_vblank_int itc else itc := by
  unfold ppu_mode_update
  split <;> rfl

theorem cycle_dot (p : PPU) :
    (cycle p).dot = if p.dot + 1 = 456 then 0 else p.dot + 1 := by
  unfold cycle
  rw [next_dot_dot]

theorem cycle_ly (p : PPU) :
    (cycle p).ly = if p.dot + 1 = 456
      then (if p.ly + 1 = 154 then 0 else p.ly + 1) else p.ly := by
  unfold cycle
  rw [next_dot_ly]

theorem cycle_itc (p : PPU) :
    (cycle p).itc = (ppu_mode_update p.itc p.prev_mode (current_mode p)).1 := by
  unfold cycle
  rw [next_dot_itc]

theorem cycle_prev (p : PPU) : (cycle p).prev_mode = some (current_mode p) := by
  unfold cycle
  rw [next_dot_prev]
  unfold ppu_mode_update
  split <;> rfl

theorem mode_vblank_iff (p : PPU) : current_mode p = Mode.vblank ↔ 144 ≤ p.ly := by
  unfold current_mode SCREEN_HEIGHT
  split_ifs <;> simp_all

/-- Trace formula for a frame from a frame start whose previous mode is
not VBlank: after `n` cycles the dot is `n % 456`, LY is `n / 456`, the
previous-mode latch records VBlank exactly after cycle `456·144`, and the
interrupt controller is untouched until the `456·144`-th cycle fires the
VBlank interrupt. -/
theorem ppu_trace (itc : SrcITC.State) (pm : Option Mode)
    (hpm : pm ≠ some Mode.vblank) :
    ∀ n, n ≤ 70223 →
      (cycle^[n] (frame_start itc pm)).dot = n % 456 ∧
      (cycle^[n] (frame_start itc pm)).ly = n / 456 ∧
      ((cycle^[n] (frame_start itc pm)).prev_mode = some Mode.vblank ↔ 65664 < n) ∧
      (cycle^[n] (frame_start itc pm)).itc
        = (if 65664 < n then SrcITC.trigger_vblank_int itc else itc) := by
  intro n
  induction n with
  | zero =>
    intro _
    refine ⟨rfl, rfl, ?_, rfl⟩
    simpa [frame_start] using hpm
  | succ n ih =>
    intro hle
    obtain ⟨hdot, hly, hprev, hitc⟩ := ih (by omega)
    rw [Function.iterate_succ_apply', cycle_dot, cycle_ly, cycle_prev, cycle_itc,
      ppu_mode_update_fst, hdot, hly, hitc]
    refine ⟨by split_ifs <;> omega, by split_ifs <;> omega, ?_, ?_⟩
    · rw [Option.some_inj, mode_vblank_iff, hly]
      omega
    · by_cases hvb : 144 ≤ n / 456
      · have hmode : current_mode (cycle^[n] (frame_start itc pm)) = Mode.vblank := by
          rw [mode_vblank_iff, hly]
          omega
        by_cases hedge : 65664 < n
        · rw [if_pos hedge]
          rw [if_neg (by simp [hprev.mpr hedge])]
          rw [if_pos (by omega)]
        · have hnp : ¬((cycle^[n] (frame_start itc pm)).prev_mode = some Mode.vblank) :=
            fun hc => hedge (hprev.mp hc)
          rw [if_neg hedge, if_pos ⟨hmode, hnp⟩, if_pos (by omega)]
      · have hmode : current_mode (cycle^[n] (frame_start itc pm)) ≠ Mode.vblank := by
          intro hc
          rw [mode_vblank_iff, hly] at hc
          omega
        rw [if_neg (fun hc => hmode hc.1), if_neg (by omega), if_neg (by omega)]

end SrcPPU

namespace SrcCPU

/-- 8-bit register names from `src/src/cpu/register.rs` (`enum Register8`). -/
inductive Register8 where
  | a | b | c | d | e | h | l | spHigh | spLow | pcHigh | pcLow | flags
deriving DecidableEq

/-- 16-bit register names from `src/src/cpu/register.rs` (`enum Register16`). -/
inductive Register16 where
  | af | bc | de | hl | sp | pc
deriving DecidableEq

/-- Pre/post increment-decrement tag from `src/src/cpu/instruction.rs`
(`enum PrePostOperation`). -/
inductive PrePostOperation where
  | dec | inc
deriving DecidableEq

/-- Jump conditions from `src/src/cpu/instruction.rs` (`enum JumpCondition`). -/
inductive JumpCondition where
  | nonZero | zero | nonCarry | carry
deriving DecidableEq

/-- 8-bit move destinations from `src/src/cpu/micro_op.rs`
(`enum Destination8Bits`); the address payload is a `u16`. -/
inductive Destination8Bits where
  | register (reg : Register8)
  | indirect (addr : Register16)
  | address (addr : Nat)
deriving DecidableEq

/-- 8-bit value sources, with exactly the variants consumed by
`CPU::source_8bits_to_value` in `src/src/cpu/mod.rs` (`Register`, `Literal`,
`Indirect`, `Address`). -/
inductive Source8bits where
  | register (reg : Register8)
  | literal (lit : Nat)
  | indirect (addr : Register16)
  | address (addr : Nat)
deriving DecidableEq

/-- Micro-operations, with exactly the variants and payloads consumed by the
`match micro_op` dispatch of `CPU::step` in `src/src/cpu/mod.rs`.  The
`checkFlags` variant carries the two alternative micro-op tails, as in the
source.  The `offset` payload of `addOffsetToReg16IntoReg16` is an `i8`,
modelled as `Int`. -/
inductive MicroOp where
  | nop
  | move8Bits (destination : Destination8Bits) (source : Source8bits)
  | move16Bits (destination source : Register16)
  | loadReg16Lit (reg : Register16) (literal : Nat)
  | andA (rhs : Source8bits)
  | orA (rhs : Source8bits)
  | xorA (rhs : Source8bits)
  | addA (rhs : Source8bits)
  | addHL (rhs : Register16)
  | adcA (rhs : Source8bits)
  | subA (rhs : Source8bits)
  | sbcA (rhs : Source8bits)
  | daa
  | complementA
  | writeMem (addr : Register16) (reg : Register8)
      (pre_op post_op : Option PrePostOperation)
  | writeMemZeroPage (reg_offset reg : Register8)
  | readMem (reg : Register8) (addr : Register16)
      (post_op : Option PrePostOperation)
  | bitTest (reg : Register8) (bit : Nat)
  | checkFlags (condition : JumpCondition) (true_ops false_ops : List MicroOp)
  | addOffsetToReg16IntoReg16 (dest rhs : Register16) (offset : Int)
      (update_flags : Bool)
  | incReg16 (reg : Register16)
  | incReg (reg : Register8)
  | incIndirect (addr : Register16)
  | decReg16 (reg : Register16)
  | decReg (reg : Register8)
  | decIndirect (addr : Register16)
  | compareA (rhs : Source8bits)
  | rotateLeftThroughCarry (reg : Register8) (set_zero : Bool)
  | rotateRightThroughCarry (reg : Register8) (set_zero : Bool)
  | shiftRightIntoCarry (reg : Register8)
  | swapReg8 (reg : Register8)
  | setCarryFlag
  | complementCarryFlag
  | enableInterrupts
  | disableInterrupts

/-- Flag bit `Flags::ZERO = 1 << 7` from `src/src/cpu/mod.rs`. -/
def ZERO : Nat := 0x80

/-- Flag bit `Flags::NEGATIVE = 1 << 6` from `src/src/cpu/mod.rs`. -/
def NEGATIVE : Nat := 0x40

/-- Flag bit `Flags::HALF_CARRY = 1 << 5` from `src/src/cpu/mod.rs`. -/
def HALF_CARRY : Nat := 0x20

/-- Flag bit `Flags::CARRY = 1 << 4` from `src/src/cpu/mod.rs`. -/
def CARRY : Nat := 0x10

/-- Bitflags membership test: `flags.contains(mask)` holds when every bit of
`mask` is set in `flags`. -/
def flags_contains (flags mask : Nat) : Bool :=
  (flags &&& mask) == mask

/-- CPU state from `struct CPU<M: Memory>` in `src/src/cpu/mod.rs`: the seven
8-bit registers, the flags byte, `SP`, `PC` and the micro-op pipeline.  The
generic memory `M` is modelled as a plain byte function (the `Memory` trait
interface `read_memory`/`write_memory`). -/
structure State where
  memory : Nat → Nat
  reg_a : Nat
  reg_b : Nat
  reg_c : Nat
  reg_d : Nat
  reg_e : Nat
  reg_h : Nat
  reg_l : Nat
  flags : Nat
  sp : Nat
  pc : Nat
  pipeline : List MicroOp

/-- Memory read through the `Memory` trait (`self.memory.read_memory(addr)`). -/
def read_memory (s : State) (addr : Nat) : Nat :=
  s.memory addr

/-- Memory write through the `Memory` trait
(`self.memory.write_memory(addr, value)`). -/
def write_memory (s : State) (addr value : Nat) : State :=
  { s with memory := fun a => if a = addr then value else s.memory a }

/-- Modelled from the spec: `utils::combine(high, low)` (the `utils` module is
declared in `src/src/lib.rs` but its file is absent); §2.1 of the spec states
that 16-bit pairs compose big-endian, high byte first. -/
def combine (high low : Nat) : Nat :=
  (high <<< 8) ||| low

/-- `CPU::load_reg8` from `src/src/cpu/mod.rs`. -/
def load_reg8 (s : State) (reg : Register8) : Nat :=
  match reg with
  | .a => s.reg_a
  | .b => s.reg_b
  | .c => s.reg_c
  | .d => s.reg_d
  | .e => s.reg_e
  | .h => s.reg_h
  | .l => s.reg_l
  | .spHigh => (s.sp >>> 8) &&& 0xFF
  | .spLow => s.sp &&& 0xFF
  | .pcHigh => (s.pc >>> 8) &&& 0xFF
  | .pcLow => s.pc &&& 0xFF
  | .flags => s.flags

/-- `CPU::store_reg8` from `src/src/cpu/mod.rs`; the `Flags` arm is
`Flags::from_bits_truncate(value)`, which keeps only the four declared flag
bits (`value & 0xF0`). -/
def store_reg8 (s : State) (reg : Register8) (value : Nat) : State :=
  match reg with
  | .a => { s with reg_a := value }
  | .b => { s with reg_b := value }
  | .c => { s with reg_c := value }
  | .d => { s with reg_d := value }
  | .e => { s with reg_e := value }
  | .h => { s with reg_h := value }
  | .l => { s with reg_l := value }
  | .spHigh => { s with sp := (s.sp &&& 0x00FF) ||| (value <<< 8) }
  | .spLow => { s with sp := (s.sp &&& 0xFF00) ||| value }
  | .pcHigh => { s with pc := (s.pc &&& 0x00FF) ||| (value <<< 8) }
  | .pcLow => { s with pc := (s.pc &&& 0xFF00) ||| value }
  | .flags => { s with flags := value &&& 0xF0 }

/-- `CPU::load_reg16` from `src/src/cpu/mod.rs`. -/
def load_reg16 (s : State) (reg : Register16) : Nat :=
  match reg with
  | .af => combine s.reg_a s.flags
  | .bc => combine s.reg_b s.reg_c
  | .de => combine s.reg_d s.reg_e
  | .hl => combine s.reg_h s.reg_l
  | .sp => s.sp
  | .pc => s.pc

/-- `CPU::store_reg16` from `src/src/cpu/mod.rs`; the `AF` arm truncates the
low byte with `Flags::from_bits_truncate(value as u8)`. -/
def store_reg16 (s : State) (reg : Register16) (value : Nat) : State :=
  match reg with
  | .af => { s with reg_a := (value >>> 8) &&& 0xFF, flags := (value &&& 0xFF) &&& 0xF0 }
  | .bc => { s with reg_b := (value >>> 8) &&& 0xFF, reg_c := value &&& 0xFF }
  | .de => { s with reg_d := (value >>> 8) &&& 0xFF, reg_e := value &&& 0xFF }
  | .hl => { s with reg_h := (value >>> 8) &&& 0xFF, reg_l := value &&& 0xFF }
  | .sp => { s with sp := value }
  | .pc => { s with pc := value }

/-- `CPU::run_pre_post_op` from `src/src/cpu/mod.rs`: 16-bit wrapping
pre/post increment or decrement. -/
def run_pre_post_op (s : State) (reg16 : Register16)
    (op : Option PrePostOperation) : State :=
  match op with
  | some .dec => store_reg16 s reg16 ((load_reg16 s reg16 + 0xFFFF) % 0x10000)
  | some .inc => store_reg16 s reg16 ((load_reg16 s reg16 + 1) % 0x10000)
  | none => s

/-- `CPU::source_8bits_to_value` from `src/src/cpu/mod.rs`. -/
def source_8bits_to_value (s : State) (src : Source8bits) : Nat :=
  match src with
  | .register reg => load_reg8 s reg
  | .literal lit => lit
  | .indirect addr => read_memory s (load_reg16 s addr)
  | .address addr => read_memory s addr

/-- `check_half_carry` from `src/src/cpu/mod.rs`. -/
def check_half_carry (a b : Nat) : Bool :=
  (((a &&& 0xf) + (b &&& 0xf)) &&& 0x10) == 0x10

/-- `check_half_carry_16bits_high` from `src/src/cpu/mod.rs`. -/
def check_half_carry_16bits_high (a b : Nat) : Bool :=
  (((a &&& 0xFFF) + (b &&& 0xFFF)) &&& 0x1000) == 0x1000

/-- `check_half_carry_16bits_mid` from `src/src/cpu/mod.rs`. -/
def check_half_carry_16bits_mid (a b : Nat) : Bool :=
  (((a &&& 0xFF) + (b &&& 0xFF)) &&& 0x100) == 0x100

/-- `check_half_carry_16bits_low` from `src/src/cpu/mod.rs` (the arguments are
cast down to `u8`). -/
def check_half_carry_16bits_low (a b : Nat) : Bool :=
  check_half_carry (a &&& 0xFF) (b &&& 0xFF)

/-- `check_half_carry_sub` from `src/src/cpu/mod.rs`:
`neg_b = u8::MAX.wrapping_sub(b).wrapping_add(1)`. -/
def check_half_carry_sub (a b : Nat) : Bool :=
  check_half_carry a ((0x100 - (b &&& 0xFF)) % 0x100)

/-- `check_half_carry_sub_16bits_low` from `src/src/cpu/mod.rs`. -/
def check_half_carry_sub_16bits_low (a b : Nat) : Bool :=
  check_half_carry_sub (a &&& 0xFF) (b &&& 0xFF)

/-- `check_half_carry_sub_16bits_mid` from `src/src/cpu/mod.rs`:
`neg_b = u16::MAX.wrapping_sub(b).wrapping_add(1)`. -/
def check_half_carry_sub_16bits_mid (a b : Nat) : Bool :=
  check_half_carry_16bits_mid a ((0x10000 - (b &&& 0xFFFF)) % 0x10000)

/-- `CPU::update_flags_arith` from `src/src/cpu/mod.rs`: rebuild the flags
byte from the Zero/Negative/Carry/HalfCarry outcomes. -/
def update_flags_arith (s : State) (res : Nat)
    (negative carry half_carry : Bool) : State :=
  let flags1 := if res == 0 then (0 : Nat) ||| ZERO else 0
  let flags2 := if negative then flags1 ||| NEGATIVE else flags1
  let flags3 := if carry then flags2 ||| CARRY else flags2
  let flags4 := if half_carry then flags3 ||| HALF_CARRY else flags3
  { s with flags := flags4 }

/-- `CPU::sub_a` from `src/src/cpu/mod.rs`: shared core of `SUB`/`SBC`/`CP`
(8-bit wrapping subtraction with borrow and flag update). -/
def sub_a (s : State) (b : Nat) (use_carry apply_res : Bool) : State :=
  let c := if use_carry && flags_contains s.flags CARRY then 1 else 0
  let a := s.reg_a
  let res := ((a + 0x100 - (b &&& 0xFF)) % 0x100 + 0x100 - c) % 0x100
  let s1 := update_flags_arith s res true
    (decide (a < (b &&& 0xFF) + c)) (decide ((a &&& 0x0F) < (b &&& 0x0F) + c))
  if apply_res then { s1 with reg_a := res } else s1

/-- The micro-op interpreter: the body of the `match micro_op` dispatch inside
`CPU::step` in `src/src/cpu/mod.rs`, acting on a state from which the micro-op
has already been popped.  Arithmetic is 8/16-bit wrapping where the source
uses `wrapping_*`/`overflowing_*`; the two `u32` subtractions in the `DAA` arm
and the `-offset` negation in `AddOffsetToReg16IntoReg16` can underflow or
overflow in the source (a debug-build panic), modelled as `none`. -/
def run_micro_op (s : State) (op : MicroOp) : Option State :=
  match op with
  | .nop => some s
  | .move8Bits destination source =>
    let value := source_8bits_to_value s source
    match destination with
    | .register reg => some (store_reg8 s reg value)
    | .indirect addr => some (write_memory s (load_reg16 s addr) value)
    | .address addr => some (write_memory s addr value)
  | .move16Bits destination source =>
    some (store_reg16 s destination (load_reg16 s source))
  | .loadReg16Lit reg literal => some (store_reg16 s reg literal)
  | .andA rhs =>
    let a := s.reg_a &&& source_8bits_to_value s rhs
    some { s with reg_a := a, flags := if a == 0 then HALF_CARRY ||| ZERO else HALF_CARRY }
  | .orA rhs =>
    let a := s.reg_a ||| source_8bits_to_value s rhs
    some { s with reg_a := a, flags := if a == 0 then ZERO else 0 }
  | .xorA rhs =>
    let a := s.reg_a ^^^ source_8bits_to_value s rhs
    some { s with reg_a := a, flags := if a == 0 then ZERO else 0 }
  | .addA rhs =>
    let a_value := s.reg_a
    let rhs_value := source_8bits_to_value s rhs
    let res := (a_value + rhs_value) % 0x100
    let carry := decide (0xFF < a_value + rhs_value)
    let half_carry := check_half_carry a_value rhs_value
    some (update_flags_arith { s with reg_a := res } res false carry half_carry)
  | .addHL rhs =>
    let hl_value := load_reg16 s .hl
    let rhs_value := load_reg16 s rhs
    let res := (hl_value + rhs_value) % 0x10000
    let carry := decide (0xFFFF < hl_value + rhs_value)
    let half_carry := check_half_carry_16bits_high hl_value rhs_value
    let s1 := store_reg16 s .hl res
    let flags1 := s1.flags &&& ZERO
    let flags2 := if half_carry then flags1 ||| HALF_CARRY else flags1
    let flags3 := if carry then flags2 ||| CARRY else flags2
    some { s1 with flags := flags3 }
  | .adcA rhs =>
    let a_value := s.reg_a
    let rhs_value := source_8bits_to_value s rhs
    let res := (a_value + rhs_value) % 0x100
    let carry := decide (0xFF < a_value + rhs_value)
    let half_carry := check_half_carry a_value rhs_value
    if flags_contains s.flags CARRY then
      let res2 := (res + 1) % 0x100
      let carry2 := carry || decide (0xFF < res + 1)
      let half_carry2 := half_carry || check_half_carry res 1
      some (update_flags_arith { s with reg_a := res2 } res2 false carry2 half_carry2)
    else
      some (update_flags_arith { s with reg_a := res } res false carry half_carry)
  | .subA rhs => some (sub_a s (source_8bits_to_value s rhs) false true)
  | .sbcA rhs => some (sub_a s (source_8bits_to_value s rhs) true true)
  | .daa =>
    let a0 := s.reg_a
    let aFin : Option Nat :=
      if !(flags_contains s.flags NEGATIVE) then
        let a1 := if flags_contains s.flags HALF_CARRY || decide (9 < (a0 &&& 0xF)) then
          a0 + 0x06 else a0
        some (if flags_contains s.flags CARRY || decide (0x9F < a1) then a1 + 0x60 else a1)
      else
        (if flags_contains s.flags HALF_CARRY then
            (if a0 < 6 then none else some ((a0 - 6) &&& 0xFF))
          else some a0).bind
          (fun a1 => if flags_contains s.flags CARRY then
            (if a1 < 0x60 then none else some (a1 - 0x60)) else some a1)
    match aFin with
    | none => none
    | some a2 =>
      let flags1 := s.flags &&& (0xFF ^^^ (HALF_CARRY ||| ZERO))
      let flags2 := if (a2 &&& 0x100) == 0x100 then flags1 ||| CARRY else flags1
      let a3 := a2 &&& 0xFF
      some { s with flags := if a3 == 0 then flags2 ||| ZERO else flags2, reg_a := a3 }
  | .complementA =>
    some { s with reg_a := 0xFF ^^^ (s.reg_a &&& 0xFF), flags := s.flags ||| (NEGATIVE ||| HALF_CARRY) }
  | .writeMem addr reg pre_op post_op =>
    let s1 := run_pre_post_op s addr pre_op
    let addr_value := load_reg16 s1 addr
    let s2 := write_memory s1 addr_value (load_reg8 s1 reg)
    some (run_pre_post_op s2 addr post_op)
  | .writeMemZeroPage reg_offset reg =>
    let addr_value := 0xFF00 + load_reg8 s reg_offset
    some (write_memory s addr_value (load_reg8 s reg))
  | .readMem reg addr post_op =>
    let addr_value := load_reg16 s addr
    let mem_value := read_memory s addr_value
    let s1 := store_reg8 s reg mem_value
    some (run_pre_post_op s1 addr post_op)
  | .bitTest reg bit =>
    let is_set := ((load_reg8 s reg >>> bit) &&& 1) == 1
    let rest := HALF_CARRY ||| (s.flags &&& CARRY)
    some { s with flags := if is_set then rest else ZERO ||| rest }
  | .checkFlags condition true_ops false_ops =>
    let cond_true :=
      match condition with
      | .nonZero => !(flags_contains s.flags ZERO)
      | .zero => flags_contains s.flags ZERO
      | .nonCarry => !(flags_contains s.flags CARRY)
      | .carry => flags_contains s.flags CARRY
    let to_prepend_ops := if cond_true then true_ops else false_ops
    some { s with pipeline := to_prepend_ops ++ s.pipeline }
  | .addOffsetToReg16IntoReg16 dest rhs offset update_flags =>
    let value := load_reg16 s rhs
    let rch : Option (Nat × Bool × Bool) :=
      if offset < 0 then
        if offset = -128 then none
        else
          let neg_offset := (-offset).toNat
          some ((value + (0x10000 - neg_offset)) % 0x10000,
            check_half_carry_sub_16bits_mid value neg_offset,
            check_half_carry_sub_16bits_low value neg_offset)
      else
        some ((value + offset.toNat) % 0x10000,
          check_half_carry_16bits_mid value offset.toNat,
          check_half_carry_16bits_low value offset.toNat)
    match rch with
    | none => none
    | some (res, carry, half_carry) =>
      let s1 := store_reg16 s dest res
      if update_flags then
        let flags1 := if carry then (0 : Nat) ||| CARRY else 0
        some { s1 with flags := if half_carry then flags1 ||| HALF_CARRY else flags1 }
      else some s1
  | .incReg16 reg => some (store_reg16 s reg ((load_reg16 s reg + 1) % 0x10000))
  | .incReg reg =>
    let reg_value := load_reg8 s reg
    let half_carry := check_half_carry reg_value 1
    let new_value := (reg_value + 1) % 0x100
    let s1 := store_reg8 s reg new_value
    let flags1 := if new_value == 0 then (0 : Nat) ||| ZERO else 0
    let flags2 := if half_carry then flags1 ||| HALF_CARRY else flags1
    some { s1 with flags := flags2 ||| (s1.flags &&& CARRY) }
  | .incIndirect addr =>
    let a := load_reg16 s addr
    let start_value := read_memory s a
    let half_carry := check_half_carry start_value 1
    let new_value := (start_value + 1) % 0x100
    let s1 := write_memory s a new_value
    some (update_flags_arith s1 new_value false (flags_contains s1.flags CARRY) half_carry)
  | .decReg16 reg => some (store_reg16 s reg ((load_reg16 s reg + 0xFFFF) % 0x10000))
  | .decReg reg =>
    let reg_value := load_reg8 s reg
    let half_carry := check_half_carry_sub reg_value 1
    let new_value := (reg_value + 0xFF) % 0x100
    let s1 := store_reg8 s reg new_value
    some (update_flags_arith s1 new_value true (flags_contains s1.flags CARRY) half_carry)
  | .decIndirect addr =>
    let a := load_reg16 s addr
    let start_value := read_memory s a
    let half_carry := check_half_carry_sub start_value 1
    let new_value := (start_value + 0xFF) % 0x100
    let s1 := write_memory s a new_value
    some (update_flags_arith s1 new_value true (flags_contains s1.flags CARRY) half_carry)
  | .compareA rhs => some (sub_a s (source_8bits_to_value s rhs) false false)
  | .rotateLeftThroughCarry reg set_zero =>
    let value := load_reg8 s reg
    let new_carry := (value >>> 7) == 1
    let new_value := ((value <<< 1) &&& 0xFF) ||| (if flags_contains s.flags CARRY then 1 else 0)
    let s1 := store_reg8 s reg new_value
    let flags1 := if new_carry then (0 : Nat) ||| CARRY else 0
    some { s1 with flags := if set_zero && new_value == 0 then flags1 ||| ZERO else flags1 }
  | .rotateRightThroughCarry reg set_zero =>
    let value := load_reg8 s reg
    let new_carry := (value &&& 0x1) == 1
    let new_value := ((if flags_contains s.flags CARRY then 1 else 0) <<< 7) ||| (value >>> 1)
    let s1 := store_reg8 s reg new_value
    let flags1 := if new_carry then (0 : Nat) ||| CARRY else 0
    some { s1 with flags := if set_zero && new_value == 0 then flags1 ||| ZERO else flags1 }
  | .shiftRightIntoCarry reg =>
    let value := load_reg8 s reg
    let carry := (value &&& 0x1) == 1
    let new_value := value >>> 1
    let s1 := store_reg8 s reg new_value
    let flags1 := if carry then (0 : Nat) ||| CARRY else 0
    some { s1 with flags := if new_value == 0 then flags1 ||| ZERO else flags1 }
  | .swapReg8 reg =>
    let value := load_reg8 s reg
    let high := (value &&& 0xF0) >>> 4
    let low := value &&& 0x0F
    let res := (low <<< 4) ||| high
    let s1 := store_reg8 s reg res
    some { s1 with flags := if res == 0 then ZERO else 0 }
  | .setCarryFlag => some { s with flags := (s.flags &&& ZERO) ||| CARRY }
  | .complementCarryFlag =>
    some { s with flags := (s.flags &&& (0xFF ^^^ (NEGATIVE ||| HALF_CARRY))) ^^^ CARRY }
  | .enableInterrupts => some s
  | .disableInterrupts => some s

/-- The pipeline-consuming phase of `CPU::step` in `src/src/cpu/mod.rs`: pop
the front micro-op (if any) and run it.  The preceding refill phase of
`step` (`fetch_and_decode` + `to_micro_ops` when the pipeline is empty) only
reads memory, advances `PC` and extends the pipeline; it never writes the
flags byte, so theorems below quantify over arbitrary pipeline contents
instead of embedding the decoder. -/
def step_pipeline (s : State) : Option State :=
  match s.pipeline with
  | [] => some s
  | op :: rest => run_micro_op { s with pipeline := rest } op

/-- Iterated `step_pipeline`. -/
def step_pipelineN : Nat → State → Option State
  | 0, s => some s
  | n + 1, s => (step_pipeline s).bind (step_pipelineN n)

theorem lowNib_or (x y : Nat) (hx : x &&& 0x0F = 0) (hy : y &&& 0x0F = 0) :
    (x ||| y) &&& 0x0F = 0 := by
  apply Nat.eq_of_testBit_eq
  intro i
  have hx' := congrArg (fun t => t.testBit i) hx
  have hy' := congrArg (fun t => t.testBit i) hy
  simp only [Nat.testBit_and, Nat.testBit_or, Nat.zero_testBit] at hx' hy' ⊢
  cases h15 : (0x0F : Nat).testBit i with
  | false => simp [h15]
  | true =>
    simp [h15] at hx' hy'
    simp [h15, hx', hy']

theorem lowNib_and (x y : Nat) (hx : x &&& 0x0F = 0) :
    (x &&& y) &&& 0x0F = 0 := by
  rw [Nat.and_assoc, Nat.and_comm y 0x0F, ← Nat.and_assoc, hx, Nat.zero_and]

theorem lowNib_xor (x y : Nat) (hx : x &&& 0x0F = 0) (hy : y &&& 0x0F = 0) :
    (x ^^^ y) &&& 0x0F = 0 := by
  apply Nat.eq_of_testBit_eq
  intro i
  have hx' := congrArg (fun t => t.testBit i) hx
  have hy' := congrArg (fun t => t.testBit i) hy
  simp only [Nat.testBit_and, Nat.testBit_xor, Nat.zero_testBit] at hx' hy' ⊢
  cases h15 : (0x0F : Nat).testBit i with
  | false => simp [h15]
  | true =>
    simp [h15] at hx' hy'
    simp [h15, hx', hy']

theorem lowNib_maskF0 (y : Nat) : (y &&& 0xF0) &&& 0x0F = 0 := by
  have h240 : (0xF0 : Nat) &&& 0x0F = 0 := by decide
  rw [Nat.and_assoc, h240, Nat.and_zero]

/-- The flags invariant for low-level register stores. -/
theorem store_reg8_lowNib (s : State) (reg : Register8) (v : Nat)
    (h : s.flags &&& 0x0F = 0) : (store_reg8 s reg v).flags &&& 0x0F = 0 := by
  cases reg <;> simp [store_reg8, h, lowNib_maskF0]

theorem store_reg16_lowNib (s : State) (reg : Register16) (v : Nat)
    (h : s.flags &&& 0x0F = 0) : (store_reg16 s reg v).flags &&& 0x0F = 0 := by
  cases reg <;> simp [store_reg16, h, lowNib_maskF0]

theorem write_memory_flags (s : State) (a v : Nat) :
    (write_memory s a v).flags = s.flags := rfl

theorem run_pre_post_op_lowNib (s : State) (reg16 : Register16)
    (op : Option PrePostOperation) (h : s.flags &&& 0x0F = 0) :
    (run_pre_post_op s reg16 op).flags &&& 0x0F = 0 := by
  rcases op with _ | op
  · exact h
  · cases op <;> simp [run_pre_post_op, store_reg16_lowNib, h]

theorem update_flags_arith_lowNib (s : State) (res : Nat)
    (negative carry half_carry : Bool) :
    (update_flags_arith s res negative carry half_carry).flags &&& 0x0F = 0 := by
  unfold update_flags_arith
  dsimp only
  split_ifs <;> decide

theorem sub_a_lowNib (s : State) (b : Nat) (use_carry apply_res : Bool) :
    (sub_a s b use_carry apply_res).flags &&& 0x0F = 0 := by
  unfold sub_a update_flags_arith
  dsimp only
  split_ifs <;> (dsimp only; decide)

/-- Single-micro-op preservation of the low-nibble invariant. -/
theorem run_micro_op_lowNib (s : State) (op : MicroOp) (s' : State)
    (hF : s.flags &&& 0x0F = 0) (h : run_micro_op s op = some s') :
    s'.flags &&& 0x0F = 0 := by
  cases op with
  | nop =>
    simp [run_micro_op] at h
    subst h; exact hF
  | move8Bits destination source =>
    cases destination with
    | register reg =>
      simp [run_micro_op] at h
      subst h; exact store_reg8_lowNib s reg _ hF
    | indirect addr =>
      simp [run_micro_op] at h
      subst h; exact hF
    | address addr =>
      simp [run_micro_op] at h
      subst h; exact hF
  | move16Bits destination source =>
    simp [run_micro_op] at h
    subst h; exact store_reg16_lowNib s destination _ hF
  | loadReg16Lit reg literal =>
    simp [run_micro_op] at h
    subst h; exact store_reg16_lowNib s reg _ hF
  | andA rhs =>
    simp [run_micro_op] at h
    subst h
    dsimp only
    split_ifs <;> decide
  | orA rhs =>
    simp [run_micro_op] at h
    subst h
    dsimp only
    split_ifs <;> decide
  | xorA rhs =>
    simp [run_micro_op] at h
    subst h
    dsimp only
    split_ifs <;> decide
  | addA rhs =>
    simp [run_micro_op] at h
    subst h
    exact update_flags_arith_lowNib _ _ _ _ _
  | addHL rhs =>
    simp [run_micro_op] at h
    subst h
    dsimp only
    have hz : ((store_reg16 s .hl ((load_reg16 s .hl + load_reg16 s rhs) % 0x10000)).flags
        &&& ZERO) &&& 0x0F = 0 :=
      lowNib_and _ _ (store_reg16_lowNib s .hl _ hF)
    split_ifs <;>
      first
        | exact hz
        | exact lowNib_or _ _ hz (by decide)
        | exact lowNib_or _ _ (lowNib_or _ _ hz (by decide)) (by decide)
  | adcA rhs =>
    simp only [run_micro_op] at h
    split_ifs at h <;>
      (simp only [Option.some_inj] at h; subst h; exact update_flags_arith_lowNib _ _ _ _ _)
  | subA rhs =>
    simp [run_micro_op] at h
    subst h; exact sub_a_lowNib _ _ _ _
  | sbcA rhs =>
    simp [run_micro_op] at h
    subst h; exact sub_a_lowNib _ _ _ _
  | daa =>
    simp only [run_micro_op] at h
    rcases hm : (if !(flags_contains s.flags NEGATIVE) then
        let a1 := if flags_contains s.flags HALF_CARRY || decide (9 < (s.reg_a &&& 0xF)) then
          s.reg_a + 0x06 else s.reg_a
        some (if flags_contains s.flags CARRY || decide (0x9F < a1) then a1 + 0x60 else a1)
      else
        (if flags_contains s.flags HALF_CARRY then
            (if s.reg_a < 6 then none else some ((s.reg_a - 6) &&& 0xFF))
          else some s.reg_a).bind
          (fun a1 => if flags_contains s.flags CARRY then
            (if a1 < 0x60 then none else some (a1 - 0x60)) else some a1)) with _ | a2
    · rw [hm] at h
      simp at h
    · rw [hm] at h
      simp only [Option.some_inj] at h
      subst h
      have h1 : (s.flags &&& (0xFF ^^^ (HALF_CARRY ||| ZERO))) &&& 0x0F = 0 :=
        lowNib_and _ _ hF
      split_ifs <;>
        first
          | exact h1
          | exact lowNib_or _ _ h1 (by decide)
          | exact lowNib_or _ _ (lowNib_or _ _ h1 (by decide)) (by decide)
  | complementA =>
    simp [run_micro_op] at h
    subst h
    exact lowNib_or _ _ hF (by decide)
  | writeMem addr reg pre_op post_op =>
    simp [run_micro_op] at h
    subst h
    apply run_pre_post_op_lowNib
    rw [write_memory_flags]
    exact run_pre_post_op_lowNib s addr pre_op hF
  | writeMemZeroPage reg_offset reg =>
    simp [run_micro_op] at h
    subst h; exact hF
  | readMem reg addr post_op =>
    simp [run_micro_op] at h
    subst h
    apply run_pre_post_op_lowNib
    exact store_reg8_lowNib s reg _ hF
  | bitTest reg bit =>
    simp [run_micro_op] at h
    subst h
    dsimp only
    have hc : (HALF_CARRY ||| (s.flags &&& CARRY)) &&& 0x0F = 0 :=
      lowNib_or _ _ (by decide) (lowNib_and _ _ hF)
    split_ifs
    · exact hc
    · exact lowNib_or _ _ (by decide) hc
  | checkFlags condition true_ops false_ops =>
    simp [run_micro_op] at h
    subst h; exact hF
  | addOffsetToReg16IntoReg16 dest rhs offset update_flags =>
    simp only [run_micro_op] at h
    rcases hm : (if offset < 0 then
        if offset = -128 then none
        else
          let neg_offset := (-offset).toNat
          some (((load_reg16 s rhs) + (0x10000 - neg_offset)) % 0x10000,
            check_half_carry_sub_16bits_mid (load_reg16 s rhs) neg_offset,
            check_half_carry_sub_16bits_low (load_reg16 s rhs) neg_offset)
      else
        some (((load_reg16 s rhs) + offset.toNat) % 0x10000,
          check_half_carry_16bits_mid (load_reg16 s rhs) offset.toNat,
          check_half_carry_16bits_low (load_reg16 s rhs) offset.toNat)) with _ | rch
    · rw [hm] at h
      simp at h
    · rw [hm] at h
      rcases rch with ⟨res, carry, half_carry⟩
      dsimp only at h
      split_ifs at h <;> simp only [Option.some_inj] at h <;> subst h <;>
        first
          | (dsimp only; decide)
          | exact store_reg16_lowNib s dest _ hF
  | incReg16 reg =>
    simp [run_micro_op] at h
    subst h; exact store_reg16_lowNib s reg _ hF
  | incReg reg =>
    simp [run_micro_op] at h
    subst h
    dsimp only
    have hs1 := store_reg8_lowNib s reg ((load_reg8 s reg + 1) % 0x100) hF
    split_ifs <;> exact lowNib_or _ _ (by decide) (lowNib_and _ _ hs1)
  | incIndirect addr =>
    simp [run_micro_op] at h
    subst h; exact update_flags_arith_lowNib _ _ _ _ _
  | decReg16 reg =>
    simp [run_micro_op] at h
    subst h; exact store_reg16_lowNib s reg _ hF
  | decReg reg =>
    simp [run_micro_op] at h
    subst h; exact update_flags_arith_lowNib _ _ _ _ _
  | decIndirect addr =>
    simp [run_micro_op] at h
    subst h; exact update_flags_arith_lowNib _ _ _ _ _
  | compareA rhs =>
    simp [run_micro_op] at h
    subst h; exact sub_a_lowNib _ _ _ _
  | rotateLeftThroughCarry reg set_zero =>
    simp [run_micro_op] at h
    subst h
    dsimp only
    split_ifs <;> decide
  | rotateRightThroughCarry reg set_zero =>
    simp [run_micro_op] at h
    subst h
    dsimp only
    split_ifs <;> decide
  | shiftRightIntoCarry reg =>
    simp [run_micro_op] at h
    subst h
    dsimp only
    split_ifs <;> decide
  | swapReg8 reg =>
    simp [run_micro_op] at h
    subst h
    dsimp only
    split_ifs <;> decide
  | setCarryFlag =>
    simp [run_micro_op] at h
    subst h
    exact lowNib_or _ _ (lowNib_and _ _ hF) (by decide)
  | complementCarryFlag =>
    simp [run_micro_op] at h
    subst h
    exact lowNib_xor _ _ (lowNib_and _ _ hF) (by decide)
  | enableInterrupts =>
    simp [run_micro_op] at h
    subst h; exact hF
  | disableInterrupts =>
    simp [run_micro_op] at h
    subst h; exact hF

theorem step_pipeline_lowNib (s : State) (s' : State)
    (hF : s.flags &&& 0x0F = 0) (h : step_pipeline s = some s') :
    s'.flags &&& 0x0F = 0 := by
  unfold step_pipeline at h
  rcases hp : s.pipeline with _ | ⟨op, rest⟩
  · rw [hp] at h
    simp at h
    subst h; exact hF
  · rw [hp] at h
    exact run_micro_op_lowNib { s with pipeline := rest } op s' hF h

theorem step_pipelineN_lowNib (n : Nat) (s : State) (s' : State)
    (hF : s.flags &&& 0x0F = 0) (h : step_pipelineN n s = some s') :
    s'.flags &&& 0x0F = 0 := by
  induction n generalizing s with
  | zero =>
    simp [step_pipelineN] at h
    subst h; exact hF
  | succ n ih =>
    unfold step_pipelineN at h
    rcases h1 : step_pipeline s with _ | s1
    · rw [h1] at h
      rw [Option.none_bind] at h
      cases h
    · rw [h1] at h
      simp only [Option.some_bind] at h
      exact ih s1 (step_pipeline_lowNib s s1 hF h1) h

end SrcCPU

/-! ## Claim theorems -/

/-- A default interrupt-controller state used as a base for concrete instances. -/
def itc0 : SrcITC.State :=
  ⟨false, 0, 0, 0, 0, 0, 0, 0, 0, false, false, fun _ => false, false, false⟩

/-- Claim C4: with TAC bit 2 set, `timer_step` increments `TIMA` once for
each time the accumulated sub-counter reaches the divider selected by
`TAC & 0x03` (1024, 16, 64, 256), i.e. `(sub + ticks) / divider` times,
leaving `(sub + ticks) % divider` in the sub-counter; each increment that
overflows past `0xFF` reloads `TIMA` from `TMA` and sets the Timer bit in
`IF` (captured by the spec-side step `spec_tima_inc`). -/
theorem c4_timer_advance (s : SrcITC.State) (ticks : Nat)
    (hEn : SrcITC.is_timer_enabled s = true)
    (hTima : s.timer_counter ≤ 0xFF) (hTmod : s.timer_modulo ≤ 0xFF)
    (hNoOv : s.timer_sub_counter + ticks < 4294967296) :
    ((SrcITC.timer_step s ticks).timer_counter, (SrcITC.timer_step s ticks).interrupt_flag)
        = (SrcITC.spec_tima_inc s.timer_modulo)^[(s.timer_sub_counter + ticks) / SrcITC.timer_divider s]
            (s.timer_counter, s.interrupt_flag)
      ∧ (SrcITC.timer_step s ticks).timer_sub_counter
          = (s.timer_sub_counter + ticks) % SrcITC.timer_divider s
      ∧ SrcITC.timer_divider s
          = (if s.timer_control &&& 0x03 = 0 then 1024
             else if s.timer_control &&& 0x03 = 1 then 16
             else if s.timer_control &&& 0x03 = 2 then 64 else 256) := by
  have hdiv : 0 < SrcITC.timer_divider s := by
    unfold SrcITC.timer_divider
    split <;> norm_num
  have hstep : SrcITC.timer_step s ticks
      = (SrcITC.timer_tick_once (SrcITC.timer_divider s))^[(s.timer_sub_counter + ticks) / SrcITC.timer_divider s]
          { s with divider_register := (SrcITC.divider_loop s.divider_register ((s.divider_counter + ticks) % 4294967296)).1, divider_counter := (SrcITC.divider_loop s.divider_register ((s.divider_counter + ticks) % 4294967296)).2, timer_sub_counter := s.timer_sub_counter + ticks } := by
    unfold SrcITC.timer_step
    dsimp only
    rw [if_pos (by simpa [SrcITC.is_timer_enabled] using hEn)]
    have h := SrcITC.timer_loop_eq_iterate (SrcITC.timer_divider s) hdiv
      (s.timer_sub_counter + ticks)
      { s with divider_register := (SrcITC.divider_loop s.divider_register ((s.divider_counter + ticks) % 4294967296)).1, divider_counter := (SrcITC.divider_loop s.divider_register ((s.divider_counter + ticks) % 4294967296)).2, timer_sub_counter := s.timer_sub_counter + ticks } rfl
    simpa [SrcITC.timer_divider] using h
  refine ⟨?_, ?_, ?_⟩
  · rw [hstep]
    have h := SrcITC.timer_iterate_pairs (SrcITC.timer_divider s)
      ((s.timer_sub_counter + ticks) / SrcITC.timer_divider s)
      { s with divider_register := (SrcITC.divider_loop s.divider_register ((s.divider_counter + ticks) % 4294967296)).1, divider_counter := (SrcITC.divider_loop s.divider_register ((s.divider_counter + ticks) % 4294967296)).2, timer_sub_counter := s.timer_sub_counter + ticks } hTima hTmod
    simpa using h
  · rw [hstep]
    rw [SrcITC.timer_iterate_sub]
    have hdm := Nat.div_add_mod (s.timer_sub_counter + ticks) (SrcITC.timer_divider s)
    rw [Nat.mul_comm] at hdm
    dsimp only
    omega
  · unfold SrcITC.timer_divider
    rcases hx : s.timer_control &&& 0x03 with _ | _ | _ | x <;> simp

/-- Concrete controller: timer enabled with TAC = 5 (divider 16), `TIMA` at
`0xFF`, `TMA` = 7, 10 T-cycles already accumulated. -/
def itcC4 : SrcITC.State :=
  { itc0 with timer_control := 5, timer_counter := 0xFF, timer_modulo := 7, timer_sub_counter := 10 }

/-- Claim C4 witness: on `itcC4`, 10 further ticks produce one increment
that reloads from `TMA` and raises the Timer interrupt bit. -/
theorem c4_timer_advance_witness :
    SrcITC.is_timer_enabled itcC4 = true ∧
      (((SrcITC.timer_step itcC4 10).timer_counter, (SrcITC.timer_step itcC4 10).interrupt_flag)
        = (SrcITC.spec_tima_inc itcC4.timer_modulo)^[(itcC4.timer_sub_counter + 10) / SrcITC.timer_divider itcC4]
            (itcC4.timer_counter, itcC4.interrupt_flag)
      ∧ (SrcITC.timer_step itcC4 10).timer_sub_counter
          = (itcC4.timer_sub_counter + 10) % SrcITC.timer_divider itcC4
      ∧ SrcITC.timer_divider itcC4
          = (if itcC4.timer_control &&& 0x03 = 0 then 1024
             else if itcC4.timer_control &&& 0x03 = 1 then 16
             else if itcC4.timer_control &&& 0x03 = 2 then 64 else 256)) :=
  ⟨rfl, c4_timer_advance itcC4 10 rfl (by norm_num [itcC4, itc0]) (by norm_num [itcC4, itc0])
    (by norm_num [itcC4, itc0])⟩

/-- Claim C10: when TAC bit 2 is clear, `timer_step` resets both `TIMA` and
the timer sub-counter to 0 regardless of their previous values, so a value
written to `TIMA` while the timer is disabled is not retained across the
next timer step. -/
theorem c10_timer_disabled_reset (s : SrcITC.State) (ticks : Nat)
    (hDis : SrcITC.is_timer_enabled s = false) :
    (SrcITC.timer_step s ticks).timer_counter = 0 ∧
      (SrcITC.timer_step s ticks).timer_sub_counter = 0 := by
  unfold SrcITC.timer_step
  dsimp only
  simp only [SrcITC.is_timer_enabled] at hDis ⊢
  simp [hDis]

/-- Concrete controller: timer disabled (TAC = 0) but `TIMA` holding 99. -/
def itcC10 : SrcITC.State := { itc0 with timer_counter := 99, timer_sub_counter := 55 }

/-- Claim C10 witness: `TIMA` holding 99 with the timer disabled is cleared
by the next `timer_step`. -/
theorem c10_timer_disabled_reset_witness :
    SrcITC.is_timer_enabled itcC10 = false ∧
      (SrcITC.timer_step itcC10 500).timer_counter = 0 ∧
      (SrcITC.timer_step itcC10 500).timer_sub_counter = 0 :=
  ⟨rfl, c10_timer_disabled_reset itcC10 500 rfl⟩

/-- Claim C6: over a frame of PPU execution started at dot 0 of scanline 0
(with the previous-mode latch not already in VBlank), LY equals `n / 456`
for every cycle index `n` of the frame — so it takes the values 0..153
exactly once each, in increasing order, 456 dots apiece — the VBlank
interrupt fires exactly once, at cycle `456·144` (the transition into
scanline 144), the frame's 70224th cycle returns the machine to the
frame-start state with LY wrapped to 0, and a start whose latch is still
VBlank behaves from its first cycle like one latched at OAM search (so
every later frame repeats the same trace).  `ppu_mode_update` is modelled
from the spec (its source is missing); `next_dot`, `current_mode` and
`trigger_vblank_int` are from the sources. -/
theorem c6_ly_vblank_frame (itc : SrcITC.State) (pm : Option SrcPPU.Mode)
    (hpm : pm ≠ some SrcPPU.Mode.vblank) :
    (∀ n, n ≤ 70223 → (SrcPPU.cycle^[n] (SrcPPU.frame_start itc pm)).ly = n / 456) ∧
    (∀ n, n ≤ 70223 →
      (SrcPPU.vblank_edge (SrcPPU.cycle^[n] (SrcPPU.frame_start itc pm)) ↔ n = 456 * 144)) ∧
    SrcPPU.cycle^[70224] (SrcPPU.frame_start itc pm)
      = SrcPPU.frame_start (SrcITC.trigger_vblank_int itc) (some SrcPPU.Mode.vblank) ∧
    SrcPPU.cycle (SrcPPU.frame_start itc (some SrcPPU.Mode.vblank))
      = SrcPPU.cycle (SrcPPU.frame_start itc (some SrcPPU.Mode.oamSearch)) := by
  refine ⟨?_, ?_, ?_, ?_⟩
  · intro n hn
    exact (SrcPPU.ppu_trace itc pm hpm n hn).2.1
  · intro n hn
    obtain ⟨hdot, hly, hprev, hitc⟩ := SrcPPU.ppu_trace itc pm hpm n hn
    unfold SrcPPU.vblank_edge
    rw [SrcPPU.mode_vblank_iff, hly]
    constructor
    · rintro ⟨h1, h2⟩
      have h3 : ¬65664 < n := fun hlt => h2 (hprev.mpr hlt)
      omega
    · intro hn144
      subst hn144
      refine ⟨by norm_num, fun hc => ?_⟩
      have := hprev.mp hc
      norm_num at this
  · obtain ⟨hdot, hly, hprev, hitc⟩ := SrcPPU.ppu_trace itc pm hpm 70223 (by norm_num)
    have hm1 : (70223 : Nat) % 456 = 455 := by norm_num
    have hm2 : (70223 : Nat) / 456 = 153 := by norm_num
    rw [hm1] at hdot
    rw [hm2] at hly
    have hprev' : (SrcPPU.cycle^[70223] (SrcPPU.frame_start itc pm)).prev_mode
        = some SrcPPU.Mode.vblank := hprev.mpr (by norm_num)
    have hit : (SrcPPU.cycle^[70223] (SrcPPU.frame_start itc pm)).itc
        = SrcITC.trigger_vblank_int itc := by
      rw [hitc, if_pos (by norm_num)]
    have h70 : (70224 : Nat) = 70223 + 1 := by norm_num
    rw [h70, Function.iterate_succ_apply']
    apply SrcPPU.PPU.ext
    · rw [SrcPPU.cycle_dot, hdot]
      rfl
    · rw [SrcPPU.cycle_ly, hdot, hly]
      rfl
    · rw [SrcPPU.cycle_itc, SrcPPU.ppu_mode_update_fst]
      rw [if_neg (fun hc => hc.2 hprev')]
      rw [hit]
      rfl
    · rw [SrcPPU.cycle_prev]
      have hm : SrcPPU.current_mode (SrcPPU.cycle^[70223] (SrcPPU.frame_start itc pm))
          = SrcPPU.Mode.vblank := by
        rw [SrcPPU.mode_vblank_iff, hly]
        norm_num
      rw [hm]
      rfl
  · rfl

/-- Claim C6 witness: the frame theorem applied to the default controller
with an empty previous-mode latch; the frame's end state is the wrapped
frame start with the VBlank interrupt fired once. -/
theorem c6_ly_vblank_frame_witness :
    ((none : Option SrcPPU.Mode) ≠ some SrcPPU.Mode.vblank) ∧
      SrcPPU.cycle^[70224] (SrcPPU.frame_start itc0 none)
        = SrcPPU.frame_start (SrcITC.trigger_vblank_int itc0) (some SrcPPU.Mode.vblank) :=
  ⟨by simp, (c6_ly_vblank_frame itc0 none (by simp)).2.2.1⟩

/-- Claim C3: a write of `H` to `0xFF46` while no OAM DMA is in progress
arms the 160-cycle countdown, and after exactly 160 MMU `tick` calls the
OAM region `0xFE00..0xFE9F` equals, byte for byte, the 160 bytes at
`H00..H9F` as captured at the start of the DMA (the state right after the
`0xFF46` write). -/
theorem c3_oam_dma (s : BackMMU.State) (H : Nat) (hH : H ≤ 0xFF)
    (hdma : s.waiting_dma = none) :
    ∃ s1 s2, BackMMU.write_memory s 0xFF46 H = some s1 ∧
      BackMMU.tickN 160 s1 = some s2 ∧
      ∀ i, i < 0xA0 →
        BackMMU.read_memory s2 (0xFE00 + i) = BackMMU.read_memory s1 (H * 0x100 + i) := by
  have hA := BackMMU.write_ff46 s H hdma
  generalize hgen : ({ s with waiting_dma := some (DMAInfo.mk_new H), io_regs := fun i => if i = 0x46 then H else s.io_regs i } : BackMMU.State) = s1 at hA
  have hdma1 : s1.waiting_dma = some ⟨H, 0xA0⟩ := by rw [← hgen]; rfl
  have h159 : BackMMU.tickN 159 s1 = some { s1 with waiting_dma := some ⟨H, 160 - 159⟩ } :=
    BackMMU.tickN_countdown 159 s1 H 0xA0 hdma1 (by norm_num)
  norm_num at h159
  have h160 : BackMMU.tickN 160 s1 = BackMMU.tick { s1 with waiting_dma := some ⟨H, 1⟩ } := by
    have hb := BackMMU.tickN_back 159 s1
    rw [h159] at hb
    exact hb
  by_cases hHfe : H = 0xFE
  · subst hHfe
    have hloop : BackMMU.dma_loop (0xFE <<< 8) { s1 with waiting_dma := some ⟨0xFE, 0⟩ } 0 0xA0
        = some { s1 with waiting_dma := some ⟨0xFE, 0⟩ } := by
      have h := BackMMU.dma_loop_fe { s1 with waiting_dma := some ⟨0xFE, 0⟩ } 0xA0 0 (by norm_num)
      have hsh : (0xFE : Nat) <<< 8 = 0xFE00 := by norm_num [Nat.shiftLeft_eq]
      rw [hsh]
      exact h
    have hloop2 : BackMMU.dma_loop (0xFE <<< 8)
        { { s1 with waiting_dma := some (⟨0xFE, 1⟩ : DMAInfo) } with waiting_dma := some ⟨0xFE, 0⟩ }
        0 0xA0 = some { s1 with waiting_dma := some ⟨0xFE, 0⟩ } := hloop
    have htick : BackMMU.tick { s1 with waiting_dma := some ⟨0xFE, 1⟩ }
        = some { s1 with waiting_dma := none } :=
      BackMMU.tick_copy _ 0xFE { s1 with waiting_dma := some ⟨0xFE, 0⟩ } rfl hloop2
    refine ⟨s1, { s1 with waiting_dma := none }, hA, ?_, ?_⟩
    · rw [h160, htick]
    · intro i hi
      rw [BackMMU.read_oam_reg _ (0xFE00 + i) (by omega) (by omega)]
      have hnum : (0xFE : Nat) * 0x100 + i = 0xFE00 + i := by norm_num
      rw [hnum, BackMMU.read_oam_reg s1 (0xFE00 + i) (by omega) (by omega)]
  · have hout : ∀ j, j < 0xA0 → ((H <<< 8) + j < 0xFE00 ∨ 0xFE9F < (H <<< 8) + j) := by
      intro j hj
      rw [Nat.shiftLeft_eq]
      norm_num
      omega
    obtain ⟨g', hloop, hin, hrest⟩ :=
      BackMMU.dma_loop_frame { s1 with waiting_dma := some ⟨H, 0⟩ } (H <<< 8) hout
        0xA0 0 ({ s1 with waiting_dma := some ⟨H, 0⟩ }).oam (by norm_num)
    have hloop2 : BackMMU.dma_loop (H <<< 8)
        { { s1 with waiting_dma := some (⟨H, 1⟩ : DMAInfo) } with waiting_dma := some ⟨H, 0⟩ }
        0 0xA0 = some { s1 with oam := g', waiting_dma := some ⟨H, 0⟩ } := hloop
    have htick : BackMMU.tick { s1 with waiting_dma := some ⟨H, 1⟩ }
        = some { s1 with oam := g', waiting_dma := none } :=
      BackMMU.tick_copy _ H { s1 with oam := g', waiting_dma := some ⟨H, 0⟩ } rfl hloop2
    refine ⟨s1, { s1 with oam := g', waiting_dma := none }, hA, ?_, ?_⟩
    · rw [h160, htick]
    · intro i hi
      rw [BackMMU.read_oam_reg _ (0xFE00 + i) (by omega) (by omega)]
      have hix : 0xFE00 + i - 0xFE00 = i := by omega
      rw [hix]
      have h1 : some (g' i)
          = BackMMU.read_memory { s1 with waiting_dma := some ⟨H, 0⟩ } ((H <<< 8) + i) :=
        hin i (by omega) (by omega)
      have h2 : BackMMU.read_memory { s1 with waiting_dma := some ⟨H, 0⟩ } ((H <<< 8) + i)
          = BackMMU.read_memory s1 ((H <<< 8) + i) :=
        BackMMU.read_congr { s1 with waiting_dma := some ⟨H, 0⟩ } s1 rfl rfl rfl rfl rfl rfl
          rfl rfl rfl ((H <<< 8) + i) ((H <<< 8) + i) rfl (hout i hi)
      have h3 : (H <<< 8) + i = H * 0x100 + i := by rw [Nat.shiftLeft_eq]
      rw [← h3]
      exact h1.trans h2

/-- A default backend interrupt-controller state for concrete instances. -/
def bitc0 : BackITC.State := ⟨0, 0, 0, 0, 0, 0, false, none, fun _ => false, false, false⟩

/-- A concrete backend MMU with zeroed stores, a `Simple` cartridge and no
DMA in progress. -/
def mmu0 : BackMMU.State :=
  ⟨fun _ => 0, BackMMU.MBCBox.simple (fun _ => 0), fun _ _ => 0, 0, fun _ _ => 0, 1,
    fun _ => 0, fun _ => 0, fun _ => 0, [], bitc0, none⟩

/-- Claim C3 witness: instantiation of the DMA theorem on `mmu0` with
source page `0x12`. -/
theorem c3_oam_dma_witness :
    (0x12 : Nat) ≤ 0xFF ∧ mmu0.waiting_dma = none ∧
      (∃ s1 s2, BackMMU.write_memory mmu0 0xFF46 0x12 = some s1 ∧
        BackMMU.tickN 160 s1 = some s2 ∧
        ∀ i, i < 0xA0 →
          BackMMU.read_memory s2 (0xFE00 + i) = BackMMU.read_memory s1 (0x12 * 0x100 + i)) :=
  ⟨by norm_num, rfl, c3_oam_dma mmu0 0x12 (by norm_num) rfl⟩

/-- Claim C1: echo-RAM aliasing fails on the backend MMU
(`src/backend/src/memory/mod.rs`): its `0xE000..=0xFDFF` arms redirect to
`addr - 0xE000` (the ROM/boot region) instead of `addr - 0x2000` (WRAM).
On a fresh MMU, writing 1 to `0xE000` is swallowed by the mounted boot-ROM
overlay, so the subsequent read of `0xC000` returns 0, not 1; conversely,
after writing 1 to `0xC000`, reading `0xE000` returns the boot-ROM byte 0
instead of 1. -/
theorem c1_backend_echo_divergence :
    (∃ s', BackMMU.write_memory mmu0 0xE000 1 = some s' ∧
        BackMMU.read_memory s' 0xC000 = some 0) ∧
      (∃ s'', BackMMU.write_memory mmu0 0xC000 1 = some s'' ∧
        BackMMU.read_memory s'' 0xE000 = some 0) ∧
      (0 : Nat) ≠ 1 := by
  have hio50 : BackMMU.read_io_reg mmu0 0xFF50 = 0 := by
    simp [BackMMU.read_io_reg, mmu0]
  refine ⟨⟨mmu0, ?_, ?_⟩, ?_, by norm_num⟩
  · rw [BackMMU.write_memory, BackMMU.serial_intercept_skip mmu0 0xE000 1 (by omega)]
    rw [BackMMU.write_dispatch_echo mmu0 0xE000 1 (by omega)]
    have h0 : (0xE000 : Nat) - 0xE000 = 0 := by norm_num
    rw [h0, BackMMU.serial_intercept_skip mmu0 0 1 (by omega)]
    rw [BackMMU.write_dispatch_boot mmu0 0 1 (by omega)]
    unfold BackMMU.write_mounted_rom
    rw [hio50]
    norm_num
  · rw [BackMMU.read_mem_wram0 mmu0 0xC000 (by norm_num)]
    simp [mmu0]
  · refine ⟨{ mmu0 with wram := fun bk i =>
        if bk = 0 ∧ i = 0xC000 - 0xC000 then 1 else mmu0.wram bk i }, ?_, ?_⟩
    · rw [BackMMU.write_memory, BackMMU.serial_intercept_skip mmu0 0xC000 1 (by omega)]
      exact BackMMU.write_dispatch_wram0 mmu0 0xC000 1 (by norm_num)
    · rw [BackMMU.read_mem_echo _ 0xE000 (by norm_num)]
      have h0 : (0xE000 : Nat) - 0xE000 = 0 := by norm_num
      rw [h0, BackMMU.read_mem_boot _ 0 (by norm_num)]
      unfold BackMMU.read_mounted_rom
      have hio50b : BackMMU.read_io_reg { mmu0 with wram := fun bk i =>
          if bk = 0 ∧ i = 0xC000 - 0xC000 then 1 else mmu0.wram bk i } 0xFF50 = 0 := by
        simp [BackMMU.read_io_reg, mmu0]
      rw [hio50b]
      norm_num
      rfl

/-- Echo-RAM aliasing does hold on the standalone MMU
(`src/src/memory/mod.rs`), whose echo arms index WRAM at `addr - 0xE000`:
for every state, every address `A` in `0xE000..0xFDFF` and every byte `b`,
writing through one side of the alias and reading through the other
returns `b`. -/
theorem c1_src_echo_alias (s : SrcMMU.State) (A b : Nat)
    (hA : 0xE000 ≤ A ∧ A ≤ 0xFDFF) :
    (∃ s', SrcMMU.write_memory s A b = some s' ∧
        SrcMMU.read_memory s' (A - 0x2000) = some b) ∧
    (∃ s'', SrcMMU.write_memory s (A - 0x2000) b = some s'' ∧
        SrcMMU.read_memory s'' A = some b) := by
  have hix : A - 0x2000 - 0xC000 = A - 0xE000 := by omega
  constructor
  · refine ⟨_, SrcMMU.src_write_echo s A b hA, ?_⟩
    rw [SrcMMU.src_read_wram _ (A - 0x2000) (by omega)]
    simp [hix]
  · refine ⟨_, SrcMMU.src_write_wram s (A - 0x2000) b (by omega), ?_⟩
    rw [SrcMMU.src_read_echo _ A hA]
    simp [hix]

/-- Claim C2 divergence on the standalone MBC1 (`src/src/memory/mbc1.rs`):
the `0x2000..=0x3FFF` arm masks the written value with `0x20` instead of
`0x1F`.  With 4 banks, writing `0x02` leaves `bank_index = 1`
(`0x02 & 0x20 = 0`, aliased to 1), so reading `0x4000` serves bank 1,
although the claim's formula `(0x02 & 0x1F) % 4 = 2` selects bank 2. -/
theorem c2_src_mask_divergence :
    ∃ s', SrcMBC1.write_memory ⟨4, 1, 0, false, fun a => a / 0x4000, fun _ => 0⟩ 0x2000 0x02
        = some s' ∧
      s'.bank_index = 1 ∧
      SrcMBC1.read_memory s' 0x4000 = some 1 ∧
      (0x02 &&& 0x1F) % 4 = 2 ∧ ¬((2 : Nat) &&& 0xF = 0) := by
  refine ⟨⟨4, 1, 0, false, fun a => a / 0x4000, fun _ => 0⟩, ?_, rfl, ?_, by decide, by decide⟩
  · rfl
  · rfl

/-- The backend MBC1 (`src/backend/src/memory/mbc1.rs`) satisfies the
claim: a write of `value` to `0x2000..0x3FFF` selects the ROM bank
`(value & 0x1F) % bank_count`, incremented by 1 when its low nibble is
zero, and a subsequent read of `A` in `0x4000..0x7FFF` serves the ROM byte
at `bank * 0x4000 + (A - 0x4000)`. -/
theorem c2_backend_bank_select (s : BackMBC1.State) (a2 value A : Nat)
    (ha2 : 0x2000 ≤ a2 ∧ a2 ≤ 0x3FFF) (hA : 0x4000 ≤ A ∧ A ≤ 0x7FFF) :
    ∃ s', BackMBC1.write_memory s a2 value = some s' ∧
      s'.bank_index = (if (value &&& 0x1F) % s.bank_count &&& 0xF = 0
                       then (value &&& 0x1F) % s.bank_count + 1
                       else (value &&& 0x1F) % s.bank_count) ∧
      BackMBC1.read_memory s' A
        = some (s.rom ((if (value &&& 0x1F) % s.bank_count &&& 0xF = 0
                        then (value &&& 0x1F) % s.bank_count + 1
                        else (value &&& 0x1F) % s.bank_count) * 0x4000 + (A - 0x4000))) := by
  have hw : BackMBC1.write_memory s a2 value =
      some { s with bank_index := (if (value &&& 0x1F) % s.bank_count &&& 0xF = 0
                                   then (value &&& 0x1F) % s.bank_count + 1
                                   else (value &&& 0x1F) % s.bank_count) } := by
    unfold BackMBC1.write_memory
    rw [if_neg (by omega), if_pos (by omega)]
    dsimp only
    congr 1
    split
    · rename_i hbeq
      rw [if_pos (by simpa using hbeq)]
    · rename_i hbeq
      rw [if_neg (by simpa using hbeq)]
  refine ⟨_, hw, rfl, ?_⟩
  unfold BackMBC1.read_memory
  rw [if_neg (by omega), if_pos (by omega)]
  simp [BackMBC1.BANK_SIZE]

/-- The backend bank-select theorem instantiated: 4 banks, write `0x02`,
read `0x4000` from bank 2. -/
theorem c2_backend_bank_select_example :
    ∃ s', BackMBC1.write_memory ⟨4, 1, 0, false, fun a => a / 0x4000, fun _ => 0⟩ 0x2000 0x02
        = some s' ∧
      s'.bank_index = (if (0x02 &&& 0x1F) % 4 &&& 0xF = 0
                       then (0x02 &&& 0x1F) % 4 + 1 else (0x02 &&& 0x1F) % 4) ∧
      BackMBC1.read_memory s' 0x4000
        = some ((fun a => a / 0x4000) ((if (0x02 &&& 0x1F) % 4 &&& 0xF = 0
                  then (0x02 &&& 0x1F) % 4 + 1 else (0x02 &&& 0x1F) % 4) * 0x4000
                    + (0x4000 - 0x4000))) :=
  c2_backend_bank_select ⟨4, 1, 0, false, fun a => a / 0x4000, fun _ => 0⟩ 0x2000 0x02 0x4000
    (by norm_num) (by norm_num)

/-- Claim C9: the key-state update aborts instead of returning normally:
`change_key_state` records the key and then hits
`todo!("Trigger interruption")`, so no updated controller state is ever
produced (modelled as `none`) for any key and pressed flag. -/
theorem c9_change_key_state_aborts (s : SrcITC.State) (key : SrcITC.Keys) (pressed : Bool) :
    SrcITC.change_key_state s key pressed = none := rfl

/-- Claim C5: for every background pixel and every sprite pixel, the merged
output of `choose_pixel` is the BG pixel if OBJ display is disabled or the
OBJ color index is 0; otherwise the OBJ pixel if the OBJ priority flag is 0;
otherwise the BG pixel if the BG color index is nonzero; otherwise the OBJ
pixel. -/
theorem c5_choose_pixel_priority (bg_color obj_color pal : Nat)
    (obj_priority obj_enable : Bool) :
    BackPPU.choose_pixel ⟨bg_color, BackPPU.PixelSource.backgroundWindow⟩
        ⟨obj_color, BackPPU.PixelSource.oam pal obj_priority⟩ obj_enable =
      some (BackPPU.spec_merge bg_color obj_color obj_priority obj_enable
        ⟨bg_color, BackPPU.PixelSource.backgroundWindow⟩
        ⟨obj_color, BackPPU.PixelSource.oam pal obj_priority⟩) := by
  unfold BackPPU.choose_pixel BackPPU.spec_merge
  cases obj_enable <;> cases obj_priority <;> simp <;> split_ifs <;> simp

/-- Claim C8 counterexample: writing `0x1A` (low nibble `0x0A`) to address
`0x0000` leaves the backend MBC1 RAM-enable latch disabled, although the
claim demands it be enabled for every value whose low nibble is `0x0A`. -/
theorem c8_counterexample :
    ∃ s' : BackMBC1.State,
      BackMBC1.write_memory
          ⟨2, 1, 0, false, fun _ => 0, fun _ => 0⟩ 0x0000 0x1A = some s' ∧
        s'.ram_enabled = false ∧ (0x1A &&& 0x0F) = 0x0A := by
  refine ⟨_, rfl, rfl, rfl⟩

/-- Claim C8 (amended): for every MBC1 state and every byte written to an
address in `0x0000..0x1FFF`, the RAM-enable latch afterwards equals
`value == 0x0A`: it is enabled exactly when the full byte is `0x0A`. -/
theorem c8_ram_enable (s : BackMBC1.State) (addr value : Nat)
    (h : addr ≤ 0x1FFF) :
    BackMBC1.write_memory s addr value =
      some { s with ram_enabled := value == 0x0A } := by
  unfold BackMBC1.write_memory
  simp [h]

/-- Claim C8 witness: instantiation of `c8_ram_enable` at address 0, value `0x0A`. -/
theorem c8_ram_enable_witness :
    (0 : Nat) ≤ 0x1FFF ∧
      BackMBC1.write_memory ⟨2, 1, 0, false, fun _ => 0, fun _ => 0⟩ 0 0x0A =
        some ⟨2, 1, 0, true, fun _ => 0, fun _ => 0⟩ :=
  ⟨by decide, c8_ram_enable ⟨2, 1, 0, false, fun _ => 0, fun _ => 0⟩ 0 0x0A (by decide)⟩

/-- Concrete CPU state for exercising the flags invariant: flags byte `0x30`
(zero low nibble) and a three-op pipeline that stores a dirty literal into
`F`, copies `HL` into `AF`, and complements `A`. -/
def cpu0 : SrcCPU.State :=
  { memory := fun _ => 0, reg_a := 0x45, reg_b := 0, reg_c := 0, reg_d := 0, reg_e := 0, reg_h := 0x9A, reg_l := 0xBC, flags := 0x30, sp := 0xFFFE, pc := 0x100, pipeline := [SrcCPU.MicroOp.move8Bits (SrcCPU.Destination8Bits.register SrcCPU.Register8.flags) (SrcCPU.Source8bits.literal 0xAB), SrcCPU.MicroOp.move16Bits SrcCPU.Register16.af SrcCPU.Register16.hl, SrcCPU.MicroOp.complementA] }

/-- The state reached from `cpu0` after its three pipelined micro-ops:
`F = (0xBC & 0xF0) | 0x60 = 0xF0`, low nibble zero throughout. -/
def cpu1 : SrcCPU.State :=
  { memory := fun _ => 0, reg_a := 0x65, reg_b := 0, reg_c := 0, reg_d := 0, reg_e := 0, reg_h := 0x9A, reg_l := 0xBC, flags := 0xF0, sp := 0xFFFE, pc := 0x100, pipeline := [] }

/-- Claim C7: for every sequence of CPU micro-ops executed by `step`, the low
four bits of the `F` register are zero immediately after each micro-op —
including after operations that store into `F` or the `AF` pair, which pass
through `Flags::from_bits_truncate`.  Formally: from any state whose flags
low nibble is zero (as established at reset, where `flags = Flags::empty()`),
executing any number of micro-ops from an arbitrary pipeline keeps the low
nibble zero; the decode phase of `step` never writes the flags byte and is
subsumed by the quantification over the pipeline. -/
theorem c7_flags_low_nibble (n : Nat) (s s' : SrcCPU.State)
    (hF : s.flags &&& 0x0F = 0)
    (h : SrcCPU.step_pipelineN n s = some s') :
    s'.flags &&& 0x0F = 0 :=
  SrcCPU.step_pipelineN_lowNib n s s' hF h

/-- Claim C7 witness: the invariant instantiated on `cpu0`, whose pipeline
stores `0xAB` into `F` and `0x9ABC` into `AF`; the final flags byte `0xF0`
still has a zero low nibble. -/
theorem c7_flags_low_nibble_witness :
    (cpu0.flags &&& 0x0F = 0) ∧ cpu1.flags &&& 0x0F = 0 :=
  ⟨by decide, c7_flags_low_nibble 3 cpu0 cpu1 (by decide) rfl⟩
